import Mathlib

/-
Verification of the pactus node tracker backend against its specification.

The Go sources are shallowly embedded: SQL tables become lists of row
structures, UTC dates become integers counting days (the Go code renders a
date with an injective format, so equality of rendered date strings
coincides with equality of day numbers), SQL numeric arithmetic becomes
rational arithmetic, and network probes become outcome oracles of type
Nat to Bool giving the result of each attempt.  Fallible operations return
Option or Except.  Strings that Go manipulates byte by byte are embedded as
List Char; all relevant inputs are ASCII, where Go bytes and Lean
characters coincide.  Functions of the Go standard library used by the
sources (net.ParseIP, net.SplitHostPort, url.Parse, regexp) are modelled by
Lean functions marked as such in their documentation; each model is shared
by every definition that refers to the library function.
-/

set_option maxRecDepth 8000

namespace NodeTracker

/-- A rendered status item, as the Go models.StatusItem: a color and a date.
The date field stands for the rendered date string. -/
structure StatusItem where
  color : Int
  date : Int
  deriving Repr, DecidableEq

/-- A row of the daily_status table of bootstrap nodes (models.DailyStatus).
The generated id and created_at columns are not modelled. -/
structure DailyStatus where
  nodeId : Int
  date : Int
  color : Int
  attempts : Nat
  success : Bool
  errorMsg : String
  deriving Repr, DecidableEq

/-- A row of the jsonrpc_daily_status table (models.JSONRPCDailyStatus). -/
structure JSONRPCDailyStatus where
  serverId : Int
  date : Int
  color : Int
  attempts : Nat
  success : Bool
  responseTimeMs : Int
  errorMsg : String
  blockchainHeight : Int
  deriving Repr, DecidableEq

/-- A row of the grpc_daily_status table (models.GRPCDailyStatus). -/
structure GRPCDailyStatus where
  serverId : Int
  date : Int
  color : Int
  attempts : Nat
  success : Bool
  responseTimeMs : Int
  errorMsg : String
  deriving Repr, DecidableEq

/-- A bootstrap node row (models.BootstrapNode); only the fields read by the
embedded operations are kept.  Scores are SQL numeric values, embedded as
rationals. -/
structure BootstrapNode where
  id : Int
  name : String
  address : String
  overallScore : ℚ
  isActive : Bool
  country : String
  city : String
  latitude : ℚ
  longitude : ℚ
  deriving Repr, DecidableEq

/-- A JSON-RPC server row (models.JSONRPCServer). -/
structure JSONRPCServer where
  id : Int
  name : String
  address : String
  network : String
  overallScore : ℚ
  isActive : Bool
  country : String
  city : String
  latitude : ℚ
  longitude : ℚ
  deriving Repr, DecidableEq

/-- A gRPC server row (models.GRPCServer). -/
structure GRPCServer where
  id : Int
  name : String
  address : String
  network : String
  overallScore : ℚ
  isActive : Bool
  country : String
  city : String
  latitude : ℚ
  longitude : ℚ
  deriving Repr, DecidableEq

/-- The grid of the last days dates initialised with color 0, built at the
top of jsonrpcStatusRepository.GetRecentStatusesByServer. -/
def denseGrid (today : Int) (days : Nat) : List StatusItem :=
  (List.range days).map (fun (i : Nat) =>
    { date := today - ((days : Int) - 1 - (i : Int)), color := 0 })

/-- The rows selected by the query of GetRecentStatusesByServer: rows of the
server whose date is at least today minus (days - 1). -/
def serverWindowRows (tbl : List JSONRPCDailyStatus) (serverId today : Int)
    (days : Nat) : List JSONRPCDailyStatus :=
  tbl.filter (fun r => decide (r.serverId = serverId ∧ today - ((days : Int) - 1) ≤ r.date))

/-- The overwrite step of GetRecentStatusesByServer: a grid entry whose date
has a selected row takes that row color.  The unique (server_id, date)
constraint makes at most one row match. -/
def fillColor (rows : List JSONRPCDailyStatus) (s : StatusItem) : StatusItem :=
  match rows.find? (fun r => decide (r.date = s.date)) with
  | some r => { s with color := r.color }
  | none => s

/-- Embedding of jsonrpcStatusRepository.GetRecentStatusesByServer
(registration_repository.go, lines 186 to 234): a dense series of length
days with color 0 at the dates that have no row. -/
def getRecentStatusesByServer (tbl : List JSONRPCDailyStatus)
    (serverId today : Int) (days : Nat) : List StatusItem :=
  (denseGrid today days).map (fillColor (serverWindowRows tbl serverId today days))

/-- Rendering of the SQL clause ORDER BY date DESC. -/
def sortByDateDesc (l : List DailyStatus) : List DailyStatus :=
  List.insertionSort (fun a b => b.date ≤ a.date) l

/-- Embedding of statusRepository.GetRecentStatusesByNode, the bootstrap
status repository: only the existing rows of the node whose date is at
least today minus days, ordered by descending date.  No dense grid is built
and no gap is filled. -/
def getRecentStatusesByNode (tbl : List DailyStatus)
    (nodeId today : Int) (days : Nat) : List StatusItem :=
  let rows := tbl.filter (fun r => decide (r.nodeId = nodeId ∧ today - (days : Int) ≤ r.date))
  (sortByDateDesc rows).map (fun r => { color := r.color, date := r.date })

/-- Rounding to two decimal places with ties away from zero, the behaviour
of the SQL function ROUND(x::numeric, 2). -/
def round2 (q : ℚ) : ℚ :=
  if 0 ≤ q then ((⌊q * 100 + 1 / 2⌋ : ℚ) / 100)
  else -((⌊-q * 100 + 1 / 2⌋ : ℚ) / 100)

/-- The correlated subquery of bootstrapRepository.UpdateAllScores: over the
rows of the node dated within the last thirty days, the count of successful
rows times 100 divided by the total count.  The divisor is a bare COUNT with
no NULLIF guard, so an empty window raises a division by zero error in the
store, rendered here as none. -/
def bootstrapScoreExpr (tbl : List DailyStatus) (nodeId today : Int) : Option ℚ :=
  let rows := tbl.filter (fun r => decide (r.nodeId = nodeId ∧ today - 30 ≤ r.date))
  if rows.length = 0 then none
  else some (round2 (((rows.filter (fun r => r.success)).length : ℚ) * 100 / (rows.length : ℚ)))

/-- Embedding of bootstrapRepository.UpdateAllScores: one UPDATE statement
over the active nodes; a division by zero in the subquery of any active node
aborts the whole statement, so the result is none and no score changes. -/
def updateAllScoresBootstrap (nodes : List BootstrapNode) (tbl : List DailyStatus)
    (today : Int) : Option (List BootstrapNode) :=
  nodes.mapM (fun n =>
    if n.isActive then
      (bootstrapScoreExpr tbl n.id today).map (fun s => { n with overallScore := s })
    else some n)

/-- The correlated subquery of jsonrpcServerRepository.UpdateAllScores.
Here the divisor is NULLIF(COUNT, 0), so an empty window produces NULL,
which COALESCE turns into the score 0. -/
def jsonrpcScoreExpr (tbl : List JSONRPCDailyStatus) (serverId today : Int) : ℚ :=
  let rows := tbl.filter (fun r => decide (r.serverId = serverId ∧ today - 30 ≤ r.date))
  if rows.length = 0 then 0
  else round2 (((rows.filter (fun r => r.success)).length : ℚ) * 100 / (rows.length : ℚ))

/-- Embedding of jsonrpcServerRepository.UpdateAllScores. -/
def updateAllScoresJsonrpc (servers : List JSONRPCServer) (tbl : List JSONRPCDailyStatus)
    (today : Int) : List JSONRPCServer :=
  servers.map (fun s =>
    if s.isActive then { s with overallScore := jsonrpcScoreExpr tbl s.id today } else s)

/-- The result of NodeChecker.CheckNode (part of services). -/
structure CheckResult where
  success : Bool
  attempts : Nat
  errorMsg : String
  deriving Repr, DecidableEq

/-- The result of JSONRPCMonitorService.ValidateJSONRPCEndpoint. -/
structure JSONRPCCheckResult where
  success : Bool
  attempts : Nat
  responseTimeMs : Int
  blockHeight : Int
  errorMsg : String
  deriving Repr, DecidableEq

/-- The result of GRPCChecker.CheckGRPCServer. -/
structure GRPCCheckResult where
  success : Bool
  attempts : Nat
  responseTimeMs : Int
  errorMsg : String
  deriving Repr, DecidableEq

/-- The DailyStatus row built by BootstrapMonitor.checkSingleNode: color 0,
set to 1 when the probe succeeded. -/
def checkSingleNodeStatus (nodeId date : Int) (r : CheckResult) : DailyStatus :=
  { nodeId := nodeId, date := date,
    color := if r.success then 1 else 0,
    attempts := r.attempts, success := r.success, errorMsg := r.errorMsg }

/-- The JSONRPCDailyStatus row built by
JSONRPCMonitorService.checkSingleServer: color 0, set to 1 on success. -/
def checkSingleServerStatus (serverId date : Int) (r : JSONRPCCheckResult) :
    JSONRPCDailyStatus :=
  { serverId := serverId, date := date,
    color := if r.success then 1 else 0,
    attempts := r.attempts, success := r.success,
    responseTimeMs := r.responseTimeMs, errorMsg := r.errorMsg,
    blockchainHeight := r.blockHeight }

/-- The GRPCDailyStatus row built by GRPCMonitor.checkSingleServer. -/
def checkSingleGrpcServerStatus (serverId date : Int) (r : GRPCCheckResult) :
    GRPCDailyStatus :=
  { serverId := serverId, date := date,
    color := if r.success then 1 else 0,
    attempts := r.attempts, success := r.success,
    responseTimeMs := r.responseTimeMs, errorMsg := r.errorMsg }

/-- Embedding of statusRepository.CreateStatus: INSERT with ON CONFLICT
(node_id, date) DO UPDATE of the mutable columns. -/
def createStatus (tbl : List DailyStatus) (s : DailyStatus) : List DailyStatus :=
  if tbl.any (fun r => decide (r.nodeId = s.nodeId ∧ r.date = s.date)) then
    tbl.map (fun r =>
      if r.nodeId = s.nodeId ∧ r.date = s.date then
        { r with color := s.color, attempts := s.attempts,
                 success := s.success, errorMsg := s.errorMsg }
      else r)
  else tbl ++ [s]

/-- Embedding of jsonrpcStatusRepository.CreateStatus: INSERT with ON
CONFLICT (server_id, date) DO UPDATE. -/
def createStatusJsonrpc (tbl : List JSONRPCDailyStatus) (s : JSONRPCDailyStatus) :
    List JSONRPCDailyStatus :=
  if tbl.any (fun r => decide (r.serverId = s.serverId ∧ r.date = s.date)) then
    tbl.map (fun r =>
      if r.serverId = s.serverId ∧ r.date = s.date then
        { r with color := s.color, attempts := s.attempts, success := s.success,
                 responseTimeMs := s.responseTimeMs, errorMsg := s.errorMsg,
                 blockchainHeight := s.blockchainHeight }
      else r)
  else tbl ++ [s]

/-- Embedding of grpcStatusRepository.CreateStatus: INSERT with ON CONFLICT
(server_id, date) DO UPDATE. -/
def createStatusGrpc (tbl : List GRPCDailyStatus) (s : GRPCDailyStatus) :
    List GRPCDailyStatus :=
  if tbl.any (fun r => decide (r.serverId = s.serverId ∧ r.date = s.date)) then
    tbl.map (fun r =>
      if r.serverId = s.serverId ∧ r.date = s.date then
        { r with color := s.color, attempts := s.attempts, success := s.success,
                 responseTimeMs := s.responseTimeMs, errorMsg := s.errorMsg }
      else r)
  else tbl ++ [s]

/-- Embedding of statusRepository.HasStatusForDate. -/
def hasStatusForDate (tbl : List DailyStatus) (nodeId date : Int) : Bool :=
  tbl.any (fun r => decide (r.nodeId = nodeId ∧ r.date = date))

/-- Embedding of jsonrpcStatusRepository.HasStatusForDate. -/
def hasStatusForDateJsonrpc (tbl : List JSONRPCDailyStatus) (serverId date : Int) : Bool :=
  tbl.any (fun r => decide (r.serverId = serverId ∧ r.date = date))

/-- Embedding of BootstrapMonitor.checkSingleNode: skip when a row for the
date exists, otherwise probe and upsert the resulting row.  The probe is an
oracle from the address to its CheckResult. -/
def checkSingleNode (probe : String → CheckResult) (tbl : List DailyStatus)
    (node : BootstrapNode) (date : Int) : List DailyStatus :=
  if hasStatusForDate tbl node.id date then tbl
  else createStatus tbl (checkSingleNodeStatus node.id date (probe node.address))

/-- Embedding of BootstrapMonitor.CheckAllNodes on the status table: the
active roster is checked one entity at a time.  The concurrent fan-out of
the source is rendered sequentially; the per day dedupe makes the final
table independent of interleaving for the properties stated below.  The
score recomputation that follows does not touch the status table. -/
def checkAllNodes (probe : String → CheckResult) (nodes : List BootstrapNode)
    (today : Int) (tbl : List DailyStatus) : List DailyStatus :=
  (nodes.filter (fun n => n.isActive)).foldl
    (fun t n => checkSingleNode probe t n today) tbl

/-- Embedding of JSONRPCMonitorService.checkSingleServer. -/
def checkSingleServer (probe : String → JSONRPCCheckResult)
    (tbl : List JSONRPCDailyStatus) (server : JSONRPCServer) (date : Int) :
    List JSONRPCDailyStatus :=
  if hasStatusForDateJsonrpc tbl server.id date then tbl
  else createStatusJsonrpc tbl (checkSingleServerStatus server.id date (probe server.address))

/-- Embedding of JSONRPCMonitorService.CheckAllServers on the status table. -/
def checkAllServers (probe : String → JSONRPCCheckResult)
    (servers : List JSONRPCServer) (today : Int) (tbl : List JSONRPCDailyStatus) :
    List JSONRPCDailyStatus :=
  (servers.filter (fun s => s.isActive)).foldl
    (fun t s => checkSingleServer probe t s today) tbl

/-- The daily status color invariant of the specification. -/
def dailyColorInv (color : Int) (success : Bool) : Prop :=
  (color = 0 ∨ color = 1 ∨ color = 2) ∧
  (success = true → 1 ≤ color) ∧ (success = false → color = 0)

/-- Number of rows of a given date in the bootstrap status table. -/
def countStatusForDate (tbl : List DailyStatus) (date : Int) : Nat :=
  (tbl.filter (fun r => decide (r.date = date))).length

/-- Number of rows of a given date in the JSON-RPC status table. -/
def countServerStatusForDate (tbl : List JSONRPCDailyStatus) (date : Int) : Nat :=
  (tbl.filter (fun r => decide (r.date = date))).length

/-- Instrumented result of a probe retry loop: the CheckResult fields
together with the trace of attempt numbers tried and of sleeps performed,
in milliseconds. -/
structure ProbeRun where
  success : Bool
  attempts : Nat
  errorMsg : String
  sleepsMs : List Nat
  tried : List Nat
  deriving Repr, DecidableEq

/-- The retry loop shared verbatim by NodeChecker.CheckNode and
GRPCChecker.CheckGRPCServer: attempts are numbered from 1; fuel is the
number of attempts still allowed including the current one; the loop stops
on the first success, and a failed attempt that is not the last sleeps
sleepMs milliseconds (the source sleeps time.Second times 2).  The outcome
oracle gives the result of each numbered connection attempt. -/
def retryFrom (sleepMs : Nat) (outcome : Nat → Bool) : Nat → Nat → ProbeRun
  | attempt, 0 =>
      { success := false, attempts := attempt - 1,
        errorMsg := "failed to connect after max attempts",
        sleepsMs := [], tried := [] }
  | attempt, fuel + 1 =>
      if outcome attempt then
        { success := true, attempts := attempt, errorMsg := "",
          sleepsMs := [], tried := [attempt] }
      else if fuel = 0 then
        { success := false, attempts := attempt,
          errorMsg := "failed to connect after max attempts",
          sleepsMs := [], tried := [attempt] }
      else
        let r := retryFrom sleepMs outcome (attempt + 1) fuel
        { r with sleepsMs := sleepMs :: r.sleepsMs, tried := attempt :: r.tried }

/-- The retry loop of NodeChecker.CheckNode after a successful address
parse: up to maxRetries attempts with a 2 second sleep between attempts. -/
def checkNodeRun (outcome : Nat → Bool) (maxRetries : Nat) : ProbeRun :=
  retryFrom 2000 outcome 1 maxRetries

/-- Embedding of GRPCChecker.CheckGRPCServer: the same loop shape as the
TCP checker, with a 2 second sleep between attempts. -/
def checkGRPCServer (outcome : Nat → Bool) (maxRetries : Nat) : ProbeRun :=
  retryFrom 2000 outcome 1 maxRetries

/-- The retry loop of JSONRPCMonitorService.ValidateJSONRPCEndpoint:
indices run from i while below the fixed bound of 5; the loop breaks on the
first success, and every failed attempt sleeps one second, also the last
one.  The triple is success flag, sleeps and tried indices. -/
def jsonrpcTryFrom (outcome : Nat → Bool) : Nat → Nat → Bool × List Nat × List Nat
  | _i, 0 => (false, [], [])
  | i, fuel + 1 =>
      if outcome i then (true, [], [i])
      else
        let r := jsonrpcTryFrom outcome (i + 1) fuel
        (r.1, 1000 :: r.2.1, i :: r.2.2)

/-- Embedding of JSONRPCMonitorService.ValidateJSONRPCEndpoint: the
Attempts field is initialised to the constant 5 and never updated by the
loop.  Error message strings are abstracted to a constant. -/
def validateJSONRPCEndpoint (outcome : Nat → Bool) : ProbeRun :=
  let r := jsonrpcTryFrom outcome 0 5
  { success := r.1, attempts := 5,
    errorMsg := if r.1 then "" else "request failed or HTTP status not 200",
    sleepsMs := r.2.1, tried := r.2.2 }

/-- Splitting on a single character, the behaviour of the Go function
strings.Split for a one character separator. -/
def charSplit (sep : Char) : List Char → List (List Char)
  | [] => [[]]
  | c :: rest =>
      if c = sep then [] :: charSplit sep rest
      else
        match charSplit sep rest with
        | [] => [[c]]
        | g :: gs => (c :: g) :: gs

/-- The scan loop of NodeChecker.parseAddress: walk the parts, and on the
keys dns, ip4 or ip6 record the following part as host, on the key tcp
record the following part as port.  A later key overrides an earlier
record. -/
def scanHostPort : List (List Char) → List Char → List Char → List Char × List Char
  | [], host, port => (host, port)
  | [_], host, port => (host, port)
  | cur :: next :: rest, host, port =>
      scanHostPort (next :: rest)
        (if cur = "dns".toList ∨ cur = "ip4".toList ∨ cur = "ip6".toList then next else host)
        (if cur = "tcp".toList then next else port)

/-- The body of NodeChecker.parseAddress after splitting: fewer than five
parts is an error, and so is a scan that leaves host or port empty. -/
def parseAddressParts (parts : List (List Char)) : Option (List Char × List Char) :=
  if parts.length < 5 then none
  else
    let hp := scanHostPort parts [] []
    if hp.1 = [] ∨ hp.2 = [] then none
    else some hp

/-- Embedding of NodeChecker.parseAddress. -/
def parseAddress (address : List Char) : Option (List Char × List Char) :=
  parseAddressParts (charSplit '/' address)

/-- The four keys recognised by the scan of parseAddress. -/
def multiaddrKeys : List (List Char) :=
  ["dns".toList, "ip4".toList, "ip6".toList, "tcp".toList]

/-- Embedding of NodeChecker.CheckNode: a failed address parse returns
success false with zero attempts and no probe; otherwise the retry loop
runs. -/
def checkNode (outcome : Nat → Bool) (maxRetries : Nat) (address : List Char) : ProbeRun :=
  match parseAddress address with
  | none =>
      { success := false, attempts := 0, errorMsg := "failed to parse address",
        sleepsMs := [], tried := [] }
  | some _ => checkNodeRun outcome maxRetries

/-- A node_registrations row (models.NodeRegistration); reviewed_at and
reviewed_by are not read by the embedded operations. -/
structure NodeRegistration where
  id : Int
  nodeType : String
  name : String
  address : String
  network : String
  email : String
  website : String
  status : String
  rejectionReason : String
  deriving Repr, DecidableEq

/-- The registration request (models.RegistrationRequest).  The gin binding
tags declared on the Go struct are carried by no code path reachable from
the JSON-RPC registerNode method, which unmarshals the parameters directly;
the embedded submit therefore receives the raw fields. -/
structure RegistrationRequest where
  nodeType : String
  name : String
  address : String
  network : String
  email : String
  website : String
  deriving Repr, DecidableEq

/-- The store state touched by SubmitRegistration: the registrations table
and the address columns of the two monitored server tables. -/
structure RegState where
  registrations : List NodeRegistration
  grpcAddresses : List String
  jsonrpcAddresses : List String
  deriving Repr, DecidableEq

/-- Embedding of RegistrationService.validateNode: only the grpc and
jsonrpc node types are probed; any other type is an error before any
insert. -/
def validateNode (grpcReachable jsonrpcReachable : String → Bool)
    (nodeType address : String) : Except String Bool :=
  if nodeType = "grpc" then .ok (grpcReachable address)
  else if nodeType = "jsonrpc" then .ok (jsonrpcReachable address)
  else .error ("unknown node type: " ++ nodeType)

/-- Embedding of RegistrationService.checkDuplicate. -/
def checkDuplicate (st : RegState) (nodeType address : String) : Bool :=
  if nodeType = "grpc" then st.grpcAddresses.contains address
  else if nodeType = "jsonrpc" then st.jsonrpcAddresses.contains address
  else false

/-- Embedding of registrationRepository.ExistsByAddress: a registration
with the address whose status is not rejected. -/
def registrationExistsByAddress (st : RegState) (address : String) : Bool :=
  st.registrations.any (fun r => r.address = address && r.status ≠ "rejected")

/-- Embedding of RegistrationService.SubmitRegistration: reachability
probe, duplicate check against the monitored table, duplicate check against
the registrations, then insert as pending.  No field of the request other
than nodeType and address is inspected before the insert. -/
def submitRegistration (grpcReachable jsonrpcReachable : String → Bool)
    (st : RegState) (req : RegistrationRequest) (newId : Int) :
    Except String (RegState × Int × String) :=
  match validateNode grpcReachable jsonrpcReachable req.nodeType req.address with
  | .error e => .error e
  | .ok reachable =>
    if !reachable then .error ("node at " ++ req.address ++ " is not reachable")
    else if checkDuplicate st req.nodeType req.address then
      .error ("a node with address " ++ req.address ++ " is already registered")
    else if registrationExistsByAddress st req.address then
      .error ("a registration for address " ++ req.address ++ " is already pending")
    else
      let reg : NodeRegistration :=
        { id := newId, nodeType := req.nodeType, name := req.name,
          address := req.address, network := req.network, email := req.email,
          website := req.website, status := "pending", rejectionReason := "" }
      .ok ({ st with registrations := st.registrations ++ [reg] }, newId, "pending")

/-- The empty registration store. -/
def emptyRegState : RegState :=
  { registrations := [], grpcAddresses := [], jsonrpcAddresses := [] }

/-- A request whose shape the specification declares invalid: network
outside mainnet and testnet, a one character name, and an email that is not
RFC shaped. -/
def invalidShapeRequest : RegistrationRequest :=
  { nodeType := "jsonrpc", name := "N", address := "https://rpc.example.com",
    network := "devnet", email := "not-an-email", website := "" }

/-- The pending row that submitRegistration inserts for
invalidShapeRequest. -/
def invalidShapeRow : NodeRegistration :=
  { id := 7, nodeType := "jsonrpc", name := "N", address := "https://rpc.example.com",
    network := "devnet", email := "not-an-email", website := "",
    status := "pending", rejectionReason := "" }

/-- The store after the insert of invalidShapeRow. -/
def invalidShapeState : RegState :=
  { registrations := [invalidShapeRow], grpcAddresses := [], jsonrpcAddresses := [] }

/-- The same request with a node type outside grpc and jsonrpc. -/
def badTypeRequest : RegistrationRequest :=
  { invalidShapeRequest with nodeType := "ftp" }

/-- Prefix test on character lists, the Go strings.HasPrefix. -/
def strStarts (pre s : List Char) : Bool := pre.isPrefixOf s

/-- Decimal value of a digit run. -/
def digitsVal (s : List Char) : Nat :=
  s.foldl (fun acc c => acc * 10 + (c.toNat - '0'.toNat)) 0

/-- Modelled from the Go standard library: acceptance of one decimal octet
of a dotted IPv4 literal by net.ParseIP; one to three digits, value at most
255, and no leading zero. -/
def ipv4OctetOk (s : List Char) : Bool :=
  !s.isEmpty && decide (s.length ≤ 3) && s.all Char.isDigit &&
    decide (digitsVal s ≤ 255) && (decide (s.length ≤ 1) || decide (s.head? ≠ some '0'))

/-- Modelled from the Go standard library: acceptance of a dotted IPv4
literal by net.ParseIP; exactly four octets. -/
def parseIPv4Ok (s : List Char) : Bool :=
  match charSplit '.' s with
  | [a, b, c, d] => ipv4OctetOk a && ipv4OctetOk b && ipv4OctetOk c && ipv4OctetOk d
  | _ => false

/-- Hexadecimal digit test. -/
def isHexChar (c : Char) : Bool :=
  c.isDigit || (decide ('a' ≤ c) && decide (c ≤ 'f')) || (decide ('A' ≤ c) && decide (c ≤ 'F'))

/-- Modelled from the Go standard library: coarse recognizer for the IPv6
literals accepted by net.ParseIP; a string containing a colon whose
characters are hexadecimal digits, colons or dots.  The exact IPv6 grammar
is not needed by any claim: the recognizer is only ever shared between the
embedded function and its specification reading. -/
def ipv6LooseOk (s : List Char) : Bool :=
  s.contains ':' && s.all (fun c => isHexChar c || c = ':' || c = '.')

/-- Modelled from the Go standard library: net.ParseIP succeeds on dotted
IPv4 literals and on IPv6 literals. -/
def goParseIPOk (s : List Char) : Bool :=
  parseIPv4Ok s || ipv6LooseOk s

/-- Modelled from the Go standard library net.SplitHostPort: split at the
last colon; inputs with no colon, with brackets, or whose host part still
contains a colon are errors (Go reports missing port, unexpected brackets
or too many colons).  The bracketed IPv6 form is folded into the error
cases: no claim exercises it, and the model is shared between the embedded
function and its specification reading. -/
def goSplitHostPort (s : List Char) : Option (List Char × List Char) :=
  if !s.contains ':' then none
  else if s.contains '[' || s.contains ']' then none
  else
    let host := ((s.reverse.dropWhile (fun c => c ≠ ':')).drop 1).reverse
    let port := (s.reverse.takeWhile (fun c => c ≠ ':')).reverse
    if host.contains ':' then none
    else some (host, port)

/-- Modelled from the Go standard library: the Hostname() of url.Parse on
an http or https address: drop the scheme, keep the authority up to the
first slash, question mark or hash, drop userinfo before an at sign, and
strip the port after the first colon; bracketed hosts return the bracket
content.  Percent escapes and the rare parse errors of url.Parse are not
modelled. -/
def goURLHostname (address : List Char) : List Char :=
  let rest :=
    if strStarts "http://".toList address then address.drop 7
    else if strStarts "https://".toList address then address.drop 8
    else address
  let authority := rest.takeWhile (fun c => c ≠ '/' && c ≠ '?' && c ≠ '#')
  let hostport :=
    if authority.contains '@' then
      (authority.reverse.takeWhile (fun c => c ≠ '@')).reverse
    else authority
  if hostport.head? = some '[' then
    (hostport.drop 1).takeWhile (fun c => c ≠ ']')
  else
    hostport.takeWhile (fun c => c ≠ ':')

/-- Word character of the Go regexp word boundary: ASCII letters, digits
and the underscore. -/
def isWordChar (c : Char) : Bool :=
  c.isAlphanum || c = '_'

/-- One octet run for the IPv4 regex: the maximal digit run at the head,
which must be one to three digits long; longer runs cannot match the
pattern at this position. -/
def octRun (s : List Char) : Option (List Char × List Char) :=
  let d := s.takeWhile Char.isDigit
  if d.isEmpty || decide (3 < d.length) then none
  else some (d, s.dropWhile Char.isDigit)

/-- Modelled from the Go standard library regexp: match of the pattern of
four dot separated octets with a trailing word boundary, anchored at the
head of the input. -/
def quadAt (s : List Char) : Option (List Char) :=
  match octRun s with
  | none => none
  | some (d1, r1) =>
    match r1 with
    | '.' :: r2 =>
      match octRun r2 with
      | none => none
      | some (d2, r3) =>
        match r3 with
        | '.' :: r4 =>
          match octRun r4 with
          | none => none
          | some (d3, r5) =>
            match r5 with
            | '.' :: r6 =>
              match octRun r6 with
              | none => none
              | some (d4, r7) =>
                let m := d1 ++ '.' :: d2 ++ '.' :: d3 ++ '.' :: d4
                match r7.head? with
                | some c => if isWordChar c then none else some m
                | none => some m
            | _ => none
        | _ => none
    | _ => none

/-- Leftmost match of the octet pattern with a leading word boundary: scan
positions left to right carrying the previous character. -/
def findIPv4From : Option Char → List Char → Option (List Char)
  | _, [] => none
  | prev, c :: rest =>
      let boundaryOk :=
        match prev with
        | none => true
        | some p => !isWordChar p
      if boundaryOk then
        match quadAt (c :: rest) with
        | some m => some m
        | none => findIPv4From (some c) rest
      else findIPv4From (some c) rest

/-- Modelled from the Go standard library regexp: FindString of the dotted
quad pattern with word boundaries. -/
def findIPv4 (s : List Char) : Option (List Char) := findIPv4From none s

/-- The first branch of GeoLocationService.ExtractIPFromAddress: a
multiaddress beginning with the ip4 prefix whose third component is an IP
literal. -/
def ip4LiteralHit (address : List Char) : Option (List Char) :=
  if strStarts "/ip4/".toList address then
    let parts := charSplit '/' address
    if decide (3 ≤ parts.length) then
      let ip := parts.getD 2 []
      if goParseIPOk ip then some ip else none
    else none
  else none

/-- The second branch of ExtractIPFromAddress: a multiaddress beginning
with the dns or dns4 prefix, resolved through the DNS oracle. -/
def dnsResolveHit (resolve : List Char → List Char) (address : List Char) :
    Option (List Char) :=
  if strStarts "/dns/".toList address || strStarts "/dns4/".toList address then
    let parts := charSplit '/' address
    if decide (3 ≤ parts.length) then some (resolve (parts.getD 2 [])) else none
  else none

/-- The third branch of ExtractIPFromAddress: an http or https URL, whose
hostname is returned directly when it is an IP literal and resolved
otherwise. -/
def urlHit (resolve : List Char → List Char) (address : List Char) : Option (List Char) :=
  if strStarts "http://".toList address || strStarts "https://".toList address then
    let host := goURLHostname address
    if goParseIPOk host then some host else some (resolve host)
  else none

/-- The fourth branch of ExtractIPFromAddress: a bare host and port string
split at the colon; a split error falls through. -/
def hostPortHit (resolve : List Char → List Char) (address : List Char) :
    Option (List Char) :=
  if address.contains ':' then
    match goSplitHostPort address with
    | some hp => if goParseIPOk hp.1 then some hp.1 else some (resolve hp.1)
    | none => none
  else none

/-- Embedding of GeoLocationService.ExtractIPFromAddress
(geo_location.go, lines 126 to 179): the branches in source order, ending
with the regex fallback and the empty string.  The resolve oracle stands
for resolveHost: DNS resolution preferring IPv4, empty on failure. -/
def extractIPFromAddress (resolve : List Char → List Char) (address : List Char) :
    List Char :=
  match ip4LiteralHit address with
  | some ip => ip
  | none =>
    match dnsResolveHit resolve address with
    | some r => r
    | none =>
      match urlHit resolve address with
      | some r => r
      | none =>
        match hostPortHit resolve address with
        | some r => r
        | none =>
          match findIPv4 address with
          | some m => if goParseIPOk m then m else []
          | none => []

/-- Modelled from the spec: resolving a host that is already an IP literal
yields that literal, as the Go net.LookupIP does for literals; otherwise the
DNS oracle answers. -/
def specResolveHost (resolve : List Char → List Char) (host : List Char) : List Char :=
  if goParseIPOk host then host else resolve host

/-- Reading of the amended claim C8, rule one: the literal IP of a
multiaddress beginning with the ip4 prefix. -/
def specRuleIp4 (address : List Char) : Option (List Char) :=
  if strStarts "/ip4/".toList address then
    if decide (3 ≤ (charSplit '/' address).length)
        && goParseIPOk ((charSplit '/' address).getD 2 []) then
      some ((charSplit '/' address).getD 2 [])
    else none
  else none

/-- Rule two: a resolved IP for a multiaddress beginning with the dns or
dns4 prefix. -/
def specRuleDns (resolve : List Char → List Char) (address : List Char) :
    Option (List Char) :=
  if strStarts "/dns/".toList address || strStarts "/dns4/".toList address then
    if decide (3 ≤ (charSplit '/' address).length) then
      some (resolve ((charSplit '/' address).getD 2 []))
    else none
  else none

/-- Rule three: the resolved host of an http or https URL. -/
def specRuleURL (resolve : List Char → List Char) (address : List Char) :
    Option (List Char) :=
  if strStarts "http://".toList address || strStarts "https://".toList address then
    some (specResolveHost resolve (goURLHostname address))
  else none

/-- Rule four: the resolved host of a bare host and port string. -/
def specRuleHostPort (resolve : List Char → List Char) (address : List Char) :
    Option (List Char) :=
  if address.contains ':' then
    (goSplitHostPort address).map (fun hp => specResolveHost resolve hp.1)
  else none

/-- Rule five: an IPv4 literal found anywhere in the string by the regex
fallback. -/
def specRuleRegex (address : List Char) : Option (List Char) :=
  (findIPv4 address).bind (fun m => if goParseIPOk m then some m else none)

/-- Reading of the amended claim C8 as a whole: the first applicable of the
five rules, and the empty string when none applies. -/
def specExtractIP (resolve : List Char → List Char) (address : List Char) : List Char :=
  (((((specRuleIp4 address).orElse
    (fun _ => specRuleDns resolve address)).orElse
    (fun _ => specRuleURL resolve address)).orElse
    (fun _ => specRuleHostPort resolve address)).orElse
    (fun _ => specRuleRegex address)).getD []

/-- State of one scheduled job under the SkipIfStillRunning chain that both
scheduler constructors install: whether an invocation is in flight, how
many run concurrently, and counters of starts and skipped ticks. -/
structure JobState where
  running : Bool
  active : Nat
  started : Nat
  skipped : Nat
  deriving Repr, DecidableEq

/-- Events of one job: a cron tick and the completion of an invocation. -/
inductive JobEvent where
  | tick
  | finish
  deriving Repr, DecidableEq

/-- Modelled from the robfig cron library used by both scheduler
constructors: the SkipIfStillRunning wrapper skips a tick while a prior
invocation of the same job is still running, and otherwise starts a new
invocation; completion releases the job.  Events are atomic, which renders
the token channel of the library. -/
def skipIfStillRunningStep (s : JobState) : JobEvent → JobState
  | .tick =>
      if s.running then { s with skipped := s.skipped + 1 }
      else { s with running := true, active := s.active + 1, started := s.started + 1 }
  | .finish =>
      if s.running then { s with running := false, active := s.active - 1 } else s

/-- The idle job state. -/
def initJobState : JobState :=
  { running := false, active := 0, started := 0, skipped := 0 }

/-- A run of the job under a sequence of events. -/
def runJobEvents (evs : List JobEvent) : JobState :=
  evs.foldl skipIfStillRunningStep initJobState

/-- A reachable_peers row (models.ReachablePeer); only the fields read by
GetMapNodes are kept. -/
structure ReachablePeer where
  id : Int
  peerId : String
  latitude : ℚ
  longitude : ℚ
  isReachable : Bool
  country : String
  city : String
  deriving Repr, DecidableEq

/-- A map node (models.MapNode); the coordinates pair is carried as two
fields. -/
structure MapNode where
  id : Int
  name : String
  nodeType : String
  lat : ℚ
  lon : ℚ
  status : String
  country : String
  city : String
  deriving Repr, DecidableEq

/-- Go string slicing s up to n: none stands for the runtime panic slice
bounds out of range raised when n exceeds the length.  Peer identifiers are
ASCII, so the Go byte count equals the character count. -/
def goSliceTo (s : String) (n : Nat) : Option String :=
  if n ≤ s.length then some (String.mk (s.toList.take n)) else none

/-- The gRPC server loop of NetworkStatsService.GetMapNodes: servers with a
geo fix become map nodes, online when the score is at least 50.  The
conditional append loop of the source is rendered by filter and map. -/
def grpcMapNodes (servers : List GRPCServer) : List MapNode :=
  (servers.filter (fun s => decide (s.latitude ≠ 0 ∨ s.longitude ≠ 0))).map (fun s =>
    { id := s.id, name := s.name, nodeType := "grpc",
      lat := s.latitude, lon := s.longitude,
      status := if s.overallScore < (50 : ℚ) then "offline" else "online",
      country := s.country, city := s.city })

/-- The JSON-RPC server loop of GetMapNodes. -/
def jsonrpcMapNodes (servers : List JSONRPCServer) : List MapNode :=
  (servers.filter (fun s => decide (s.latitude ≠ 0 ∨ s.longitude ≠ 0))).map (fun s =>
    { id := s.id, name := s.name, nodeType := "jsonrpc",
      lat := s.latitude, lon := s.longitude,
      status := if s.overallScore < (50 : ℚ) then "offline" else "online",
      country := s.country, city := s.city })

/-- The bootstrap node loop of GetMapNodes. -/
def bootstrapMapNodes (nodes : List BootstrapNode) : List MapNode :=
  (nodes.filter (fun n => decide (n.latitude ≠ 0 ∨ n.longitude ≠ 0))).map (fun n =>
    { id := n.id, name := n.name, nodeType := "bootstrap",
      lat := n.latitude, lon := n.longitude,
      status := if n.overallScore < (50 : ℚ) then "offline" else "online",
      country := n.country, city := n.city })

/-- The peer loop of GetMapNodes: every reachable peer with a geo fix has
its peer identifier sliced to twelve bytes with no guard; a short
identifier panics, rendering the whole call none. -/
def peerMapNodes (peers : List ReachablePeer) : Option (List MapNode) :=
  (peers.filter (fun p => decide (p.latitude ≠ 0 ∨ p.longitude ≠ 0))).mapM (fun p =>
    (goSliceTo p.peerId 12).map (fun pre =>
      { id := p.id, name := pre ++ "...", nodeType := "peer",
        lat := p.latitude, lon := p.longitude,
        status := if p.isReachable then "online" else "offline",
        country := p.country, city := p.city }))

/-- Embedding of NetworkStatsService.GetMapNodes: the three server loops
never panic; the peer loop may. -/
def getMapNodes (grpc : List GRPCServer) (jsonrpc : List JSONRPCServer)
    (bootstrap : List BootstrapNode) (peers : List ReachablePeer) :
    Option (List MapNode) :=
  (peerMapNodes peers).map (fun ps =>
    grpcMapNodes grpc ++ jsonrpcMapNodes jsonrpc ++ bootstrapMapNodes bootstrap ++ ps)

/-- An active bootstrap node with no status rows: the failing input of the
division by zero in updateAllScoresBootstrap. -/
def nodeNoRows : BootstrapNode :=
  { id := 1, name := "node-one", address := "/dns/a.example/tcp/1/p2p/x",
    overallScore := 0, isActive := true, country := "", city := "",
    latitude := 0, longitude := 0 }

/-- An active JSON-RPC server used by the score examples. -/
def serverNoRows : JSONRPCServer :=
  { id := 1, name := "server-one", address := "https://rpc.example",
    network := "mainnet", overallScore := 0, isActive := true,
    country := "", city := "", latitude := 0, longitude := 0 }

/-- Thirty bootstrap status rows in the score window: eighteen successes
and twelve failures, the literal example of the specification. -/
def exampleDaily18x12 : List DailyStatus :=
  (List.range 18).map (fun (i : Nat) =>
    { nodeId := 1, date := -(i : Int), color := 1, attempts := 1,
      success := true, errorMsg := "" })
  ++ (List.range 12).map (fun (i : Nat) =>
    { nodeId := 1, date := -(18 + (i : Int)), color := 0, attempts := 5,
      success := false, errorMsg := "" })

/-- The same thirty rows for the JSON-RPC status table. -/
def exampleJDaily18x12 : List JSONRPCDailyStatus :=
  (List.range 18).map (fun (i : Nat) =>
    { serverId := 1, date := -(i : Int), color := 1, attempts := 1,
      success := true, responseTimeMs := 10, errorMsg := "", blockchainHeight := 0 })
  ++ (List.range 12).map (fun (i : Nat) =>
    { serverId := 1, date := -(18 + (i : Int)), color := 0, attempts := 5,
      success := false, responseTimeMs := 0, errorMsg := "", blockchainHeight := 0 })

/-- A geo fixed reachable peer whose identifier is shorter than twelve
bytes. -/
def shortIdPeer : ReachablePeer :=
  { id := 1, peerId := "short", latitude := 1, longitude := 0,
    isReachable := true, country := "", city := "" }

/-- A geo fixed reachable peer with a full length identifier. -/
def longIdPeer : ReachablePeer :=
  { id := 2, peerId := "12D3KooWAbCdEfGh", latitude := 1, longitude := 2,
    isReachable := true, country := "", city := "" }

/-
Theorems.  Helper lemmas come first; the claim theorems, their witnesses and
the counterexamples close each group.
-/

theorem fillColor_date (rows : List JSONRPCDailyStatus) (s : StatusItem) :
    (fillColor rows s).date = s.date := by
  unfold fillColor
  cases rows.find? (fun r => decide (r.date = s.date)) <;> rfl

theorem getRecentStatusesByServer_dense (tbl : List JSONRPCDailyStatus)
    (serverId today : Int) :
    (getRecentStatusesByServer tbl serverId today 30).length = 30 ∧
    (getRecentStatusesByServer tbl serverId today 30).map (fun s => s.date)
      = (List.range 30).map (fun (i : Nat) => today - 29 + (i : Int)) ∧
    (∀ item ∈ getRecentStatusesByServer tbl serverId today 30,
      (∀ r ∈ tbl, ¬(r.serverId = serverId ∧ r.date = item.date)) → item.color = 0) := by
  refine ⟨?_, ?_, ?_⟩
  · rw [getRecentStatusesByServer, denseGrid]
    rw [List.length_map, List.length_map, List.length_range]
  · rw [getRecentStatusesByServer, List.map_map, denseGrid, List.map_map]
    apply List.map_congr_left
    intro i _
    show (fillColor _ _).date = _
    rw [fillColor_date]
    show today - ((30 : Int) - 1 - (i : Int)) = today - 29 + (i : Int)
    ring
  · intro item hmem hno
    rw [getRecentStatusesByServer] at hmem
    obtain ⟨g, hg, rfl⟩ := List.mem_map.mp hmem
    rw [fillColor_date] at hno
    unfold fillColor
    cases hf : (serverWindowRows tbl serverId today 30).find?
        (fun r => decide (r.date = g.date)) with
    | none =>
        obtain ⟨i, _, rfl⟩ := List.mem_map.mp hg
        rfl
    | some r =>
        exfalso
        have hr := List.find?_some hf
        have hrmem := List.mem_of_find?_eq_some hf
        rw [serverWindowRows, List.mem_filter] at hrmem
        rw [decide_eq_true_eq] at hr
        have hpred := hrmem.2
        rw [decide_eq_true_eq] at hpred
        exact hno r hrmem.1 ⟨hpred.1, hr⟩

theorem getRecentStatusesByNode_sparse (tbl : List DailyStatus)
    (nodeId today : Int) :
    (getRecentStatusesByNode tbl nodeId today 30).length
      = (tbl.filter (fun r => decide (r.nodeId = nodeId ∧ today - 30 ≤ r.date))).length ∧
    List.Pairwise (fun a b => b.date ≤ a.date) (getRecentStatusesByNode tbl nodeId today 30) ∧
    (∀ item ∈ getRecentStatusesByNode tbl nodeId today 30,
      ∃ r ∈ tbl, r.nodeId = nodeId ∧ today - 30 ≤ r.date ∧
        item.color = r.color ∧ item.date = r.date) := by
  refine ⟨?_, ?_, ?_⟩
  · rw [getRecentStatusesByNode]
    show (List.map _ (sortByDateDesc _)).length = _
    rw [List.length_map, sortByDateDesc]
    exact (List.perm_insertionSort _ _).length_eq
  · letI : IsTotal DailyStatus (fun a b => b.date ≤ a.date) :=
      ⟨fun a b => le_total b.date a.date⟩
    letI : IsTrans DailyStatus (fun a b => b.date ≤ a.date) :=
      ⟨fun _ _ _ hab hbc => le_trans hbc hab⟩
    have hs := List.sorted_insertionSort (fun (a b : DailyStatus) => b.date ≤ a.date)
      (tbl.filter (fun r => decide (r.nodeId = nodeId ∧ today - 30 ≤ r.date)))
    rw [getRecentStatusesByNode]
    show List.Pairwise _ (List.map _ (sortByDateDesc _))
    rw [sortByDateDesc]
    exact List.Pairwise.map _ (fun a b h => h) hs
  · intro item hmem
    rw [getRecentStatusesByNode] at hmem
    obtain ⟨r, hr, rfl⟩ := List.mem_map.mp hmem
    rw [sortByDateDesc] at hr
    have hmem2 := (List.perm_insertionSort (fun (a b : DailyStatus) => b.date ≤ a.date) _).mem_iff.mp hr
    rw [List.mem_filter, decide_eq_true_eq] at hmem2
    exact ⟨r, hmem2.1, hmem2.2.1, hmem2.2.2, rfl, rfl⟩

/-- Claim C1, corrected.  The series of the JSON-RPC status repository is
dense: thirty items, dates rising one day at a time from today minus 29
through today, color 0 wherever the server has no row.  The bootstrap
status repository returns instead only the existing rows of the window, in
descending date order, each carrying the color and date of a stored row. -/
theorem c1_dense_series :
    (∀ (tbl : List JSONRPCDailyStatus) (serverId today : Int),
      (getRecentStatusesByServer tbl serverId today 30).length = 30 ∧
      (getRecentStatusesByServer tbl serverId today 30).map (fun s => s.date)
        = (List.range 30).map (fun (i : Nat) => today - 29 + (i : Int)) ∧
      (∀ item ∈ getRecentStatusesByServer tbl serverId today 30,
        (∀ r ∈ tbl, ¬(r.serverId = serverId ∧ r.date = item.date)) → item.color = 0)) ∧
    (∀ (tbl : List DailyStatus) (nodeId today : Int),
      (getRecentStatusesByNode tbl nodeId today 30).length
        = (tbl.filter (fun r => decide (r.nodeId = nodeId ∧ today - 30 ≤ r.date))).length ∧
      List.Pairwise (fun a b => b.date ≤ a.date) (getRecentStatusesByNode tbl nodeId today 30) ∧
      (∀ item ∈ getRecentStatusesByNode tbl nodeId today 30,
        ∃ r ∈ tbl, r.nodeId = nodeId ∧ today - 30 ≤ r.date ∧
          item.color = r.color ∧ item.date = r.date)) :=
  ⟨getRecentStatusesByServer_dense, getRecentStatusesByNode_sparse⟩

/-- Witness for C1 at a concrete input. -/
theorem c1_dense_series_witness :
    (getRecentStatusesByServer [] 1 0 30).length = 30 ∧
    ({ color := 0, date := 0 } : StatusItem).color = 0 := by
  refine ⟨(c1_dense_series.1 [] 1 0).1, ?_⟩
  exact (c1_dense_series.1 [] 1 0).2.2 { color := 0, date := 0 } (by decide)
    (fun r hr => absurd hr (List.not_mem_nil r))

/-- Counterexample to C1 as stated: an active bootstrap node with a single
status row two days old yields a one item series from the bootstrap
repository, not a dense thirty item one. -/
theorem c1_counterexample :
    (getRecentStatusesByNode
      [{ nodeId := 1, date := -2, color := 1, attempts := 1, success := true, errorMsg := "" }]
      1 0 30).length = 1 ∧ (1 : Nat) ≠ 30 := by decide

theorem round2_bounds (q : ℚ) (h0 : 0 ≤ q) (h1 : q ≤ 100) :
    0 ≤ round2 q ∧ round2 q ≤ 100 := by
  rw [round2, if_pos h0]
  constructor
  · apply div_nonneg _ (by norm_num)
    have : (0 : ℤ) ≤ ⌊q * 100 + 1 / 2⌋ := by
      apply Int.floor_nonneg.mpr
      positivity
    exact_mod_cast this
  · rw [div_le_iff₀ (by norm_num : (0 : ℚ) < 100)]
    have hlt : ⌊q * 100 + 1 / 2⌋ < 10001 := by
      apply Int.floor_lt.mpr
      push_cast
      nlinarith
    have hle : ⌊q * 100 + 1 / 2⌋ ≤ 10000 := by omega
    calc ((⌊q * 100 + 1 / 2⌋ : ℚ)) ≤ 10000 := by exact_mod_cast hle
    _ = 100 * 100 := by norm_num

theorem jsonrpcScoreExpr_bounds (tbl : List JSONRPCDailyStatus) (serverId today : Int) :
    0 ≤ jsonrpcScoreExpr tbl serverId today ∧ jsonrpcScoreExpr tbl serverId today ≤ 100 := by
  rw [jsonrpcScoreExpr]
  set rows := tbl.filter (fun r => decide (r.serverId = serverId ∧ today - 30 ≤ r.date)) with hrows
  by_cases h : rows.length = 0
  · rw [if_pos h]
    norm_num
  · rw [if_neg h]
    have hpos : (0 : ℚ) < rows.length := by
      have : 0 < rows.length := Nat.pos_of_ne_zero h
      exact_mod_cast this
    have hle : (rows.filter (fun r => r.success)).length ≤ rows.length :=
      List.length_filter_le _ _
    apply round2_bounds
    · positivity
    · rw [div_le_iff₀ hpos]
      have : ((rows.filter (fun r => r.success)).length : ℚ) ≤ (rows.length : ℚ) := by
        exact_mod_cast hle
      nlinarith

theorem jsonrpcScoreExpr_example : jsonrpcScoreExpr exampleJDaily18x12 1 0 = 60 := by
  have hfil : exampleJDaily18x12.filter
      (fun r => decide (r.serverId = 1 ∧ (0 : Int) - 30 ≤ r.date)) = exampleJDaily18x12 := by
    decide
  have hlen : exampleJDaily18x12.length = 30 := by decide
  have hsucc : (exampleJDaily18x12.filter (fun r => r.success)).length = 18 := by decide
  rw [jsonrpcScoreExpr]
  simp only [hfil, hlen, hsucc]
  norm_num [round2]

theorem bootstrapScoreExpr_example : bootstrapScoreExpr exampleDaily18x12 1 0 = some 60 := by
  have hfil : exampleDaily18x12.filter
      (fun r => decide (r.nodeId = 1 ∧ (0 : Int) - 30 ≤ r.date)) = exampleDaily18x12 := by
    decide
  have hlen : exampleDaily18x12.length = 30 := by decide
  have hsucc : (exampleDaily18x12.filter (fun r => r.success)).length = 18 := by decide
  rw [bootstrapScoreExpr]
  simp only [hfil, hlen, hsucc]
  norm_num [round2]

/-- Claim C2, evaluated at the failing input and at the literal example of
the specification.  The bootstrap UpdateAllScores divides by a bare COUNT:
an active node with no rows in the window makes the whole statement fail
with a division by zero, where the specification requires the score 0.  The
JSON-RPC variant guards the divisor with NULLIF and does set the score 0 on
an empty window, 60 on eighteen successes out of thirty rows, and always a
value between 0 and 100. -/
theorem c2_update_all_scores :
    updateAllScoresBootstrap [nodeNoRows] [] 0 = none ∧
    updateAllScoresJsonrpc [serverNoRows] [] 0
      = [{ serverNoRows with overallScore := 0 }] ∧
    bootstrapScoreExpr exampleDaily18x12 1 0 = some 60 ∧
    updateAllScoresJsonrpc [serverNoRows] exampleJDaily18x12 0
      = [{ serverNoRows with overallScore := 60 }] ∧
    (∀ (tbl : List JSONRPCDailyStatus) (serverId today : Int),
      0 ≤ jsonrpcScoreExpr tbl serverId today ∧
        jsonrpcScoreExpr tbl serverId today ≤ 100) := by
  refine ⟨rfl, rfl, bootstrapScoreExpr_example, ?_, jsonrpcScoreExpr_bounds⟩
  rw [updateAllScoresJsonrpc]
  rw [List.map_cons, List.map_nil]
  rw [if_pos (show serverNoRows.isActive = true from rfl)]
  rw [show serverNoRows.id = (1 : Int) from rfl, jsonrpcScoreExpr_example]
  rfl

theorem checkSingleNodeStatus_inv (nodeId date : Int) (r : CheckResult) :
    dailyColorInv (checkSingleNodeStatus nodeId date r).color
      (checkSingleNodeStatus nodeId date r).success := by
  unfold dailyColorInv checkSingleNodeStatus
  cases r.success <;> simp

theorem checkSingleServerStatus_inv (serverId date : Int) (r : JSONRPCCheckResult) :
    dailyColorInv (checkSingleServerStatus serverId date r).color
      (checkSingleServerStatus serverId date r).success := by
  unfold dailyColorInv checkSingleServerStatus
  cases r.success <;> simp

theorem checkSingleGrpcServerStatus_inv (serverId date : Int) (r : GRPCCheckResult) :
    dailyColorInv (checkSingleGrpcServerStatus serverId date r).color
      (checkSingleGrpcServerStatus serverId date r).success := by
  unfold dailyColorInv checkSingleGrpcServerStatus
  cases r.success <;> simp

theorem createStatus_inv (tbl : List DailyStatus) (s : DailyStatus)
    (htbl : ∀ x ∈ tbl, dailyColorInv x.color x.success)
    (hs : dailyColorInv s.color s.success) :
    ∀ x ∈ createStatus tbl s, dailyColorInv x.color x.success := by
  intro x hx
  unfold createStatus at hx
  by_cases h : tbl.any (fun r => decide (r.nodeId = s.nodeId ∧ r.date = s.date)) = true
  · rw [if_pos h] at hx
    obtain ⟨r, hr, rfl⟩ := List.mem_map.mp hx
    by_cases hk : r.nodeId = s.nodeId ∧ r.date = s.date
    · rw [if_pos hk]
      exact hs
    · rw [if_neg hk]
      exact htbl r hr
  · rw [if_neg h] at hx
    rcases List.mem_append.mp hx with h1 | h2
    · exact htbl x h1
    · rw [List.mem_singleton] at h2
      subst h2
      exact hs

theorem createStatusJsonrpc_inv (tbl : List JSONRPCDailyStatus) (s : JSONRPCDailyStatus)
    (htbl : ∀ x ∈ tbl, dailyColorInv x.color x.success)
    (hs : dailyColorInv s.color s.success) :
    ∀ x ∈ createStatusJsonrpc tbl s, dailyColorInv x.color x.success := by
  intro x hx
  unfold createStatusJsonrpc at hx
  by_cases h : tbl.any (fun r => decide (r.serverId = s.serverId ∧ r.date = s.date)) = true
  · rw [if_pos h] at hx
    obtain ⟨r, hr, rfl⟩ := List.mem_map.mp hx
    by_cases hk : r.serverId = s.serverId ∧ r.date = s.date
    · rw [if_pos hk]
      exact hs
    · rw [if_neg hk]
      exact htbl r hr
  · rw [if_neg h] at hx
    rcases List.mem_append.mp hx with h1 | h2
    · exact htbl x h1
    · rw [List.mem_singleton] at h2
      subst h2
      exact hs

theorem createStatusGrpc_inv (tbl : List GRPCDailyStatus) (s : GRPCDailyStatus)
    (htbl : ∀ x ∈ tbl, dailyColorInv x.color x.success)
    (hs : dailyColorInv s.color s.success) :
    ∀ x ∈ createStatusGrpc tbl s, dailyColorInv x.color x.success := by
  intro x hx
  unfold createStatusGrpc at hx
  by_cases h : tbl.any (fun r => decide (r.serverId = s.serverId ∧ r.date = s.date)) = true
  · rw [if_pos h] at hx
    obtain ⟨r, hr, rfl⟩ := List.mem_map.mp hx
    by_cases hk : r.serverId = s.serverId ∧ r.date = s.date
    · rw [if_pos hk]
      exact hs
    · rw [if_neg hk]
      exact htbl r hr
  · rw [if_neg h] at hx
    rcases List.mem_append.mp hx with h1 | h2
    · exact htbl x h1
    · rw [List.mem_singleton] at h2
      subst h2
      exact hs

/-- Claim C3, confirmed.  Every daily status row written by the three
monitors has color 0 or 1, success implies color at least 1, failure
implies color 0; and the three status upserts preserve the invariant. -/
theorem c3_daily_color_invariant :
    (∀ (nodeId date : Int) (r : CheckResult),
      dailyColorInv (checkSingleNodeStatus nodeId date r).color
        (checkSingleNodeStatus nodeId date r).success) ∧
    (∀ (serverId date : Int) (r : JSONRPCCheckResult),
      dailyColorInv (checkSingleServerStatus serverId date r).color
        (checkSingleServerStatus serverId date r).success) ∧
    (∀ (serverId date : Int) (r : GRPCCheckResult),
      dailyColorInv (checkSingleGrpcServerStatus serverId date r).color
        (checkSingleGrpcServerStatus serverId date r).success) ∧
    (∀ (tbl : List DailyStatus) (s : DailyStatus),
      (∀ x ∈ tbl, dailyColorInv x.color x.success) →
      dailyColorInv s.color s.success →
      ∀ x ∈ createStatus tbl s, dailyColorInv x.color x.success) ∧
    (∀ (tbl : List JSONRPCDailyStatus) (s : JSONRPCDailyStatus),
      (∀ x ∈ tbl, dailyColorInv x.color x.success) →
      dailyColorInv s.color s.success →
      ∀ x ∈ createStatusJsonrpc tbl s, dailyColorInv x.color x.success) ∧
    (∀ (tbl : List GRPCDailyStatus) (s : GRPCDailyStatus),
      (∀ x ∈ tbl, dailyColorInv x.color x.success) →
      dailyColorInv s.color s.success →
      ∀ x ∈ createStatusGrpc tbl s, dailyColorInv x.color x.success) :=
  ⟨checkSingleNodeStatus_inv, checkSingleServerStatus_inv, checkSingleGrpcServerStatus_inv,
   createStatus_inv, createStatusJsonrpc_inv, createStatusGrpc_inv⟩

/-- Witness for C3 at a concrete input: upserting the row of a successful
probe into the empty table, every stored row satisfies the invariant. -/
theorem c3_daily_color_invariant_witness :
    dailyColorInv (checkSingleNodeStatus 1 0 ⟨true, 1, ""⟩).color
      (checkSingleNodeStatus 1 0 ⟨true, 1, ""⟩).success := by
  have h := c3_daily_color_invariant.2.2.2.1 []
    (checkSingleNodeStatus 1 0 ⟨true, 1, ""⟩)
    (fun x hx => absurd hx (List.not_mem_nil x))
    (c3_daily_color_invariant.1 1 0 ⟨true, 1, ""⟩)
  exact h (checkSingleNodeStatus 1 0 ⟨true, 1, ""⟩)
    (by rw [show createStatus [] (checkSingleNodeStatus 1 0 ⟨true, 1, ""⟩)
          = [checkSingleNodeStatus 1 0 ⟨true, 1, ""⟩] from rfl]
        exact List.mem_singleton.mpr rfl)

theorem hasStatusForDate_createStatus_self (tbl : List DailyStatus) (s : DailyStatus) :
    hasStatusForDate (createStatus tbl s) s.nodeId s.date = true := by
  unfold hasStatusForDate createStatus
  by_cases h : tbl.any (fun r => decide (r.nodeId = s.nodeId ∧ r.date = s.date)) = true
  · rw [if_pos h, List.any_map]
    rw [List.any_eq_true] at h ⊢
    obtain ⟨r, hr, hp⟩ := h
    refine ⟨r, hr, ?_⟩
    rw [decide_eq_true_eq] at hp
    simp only [Function.comp]
    simp [if_pos hp, hp.1, hp.2]
  · rw [if_neg h, List.any_append]
    simp

theorem hasStatusForDate_createStatus_mono (tbl : List DailyStatus) (s : DailyStatus)
    (id d : Int) (hh : hasStatusForDate tbl id d = true) :
    hasStatusForDate (createStatus tbl s) id d = true := by
  unfold hasStatusForDate at hh ⊢
  unfold createStatus
  by_cases h : tbl.any (fun r => decide (r.nodeId = s.nodeId ∧ r.date = s.date)) = true
  · rw [if_pos h, List.any_map]
    rw [List.any_eq_true] at hh ⊢
    obtain ⟨r, hr, hp⟩ := hh
    refine ⟨r, hr, ?_⟩
    rw [decide_eq_true_eq] at hp
    simp only [Function.comp]
    by_cases hk : r.nodeId = s.nodeId ∧ r.date = s.date
    · simp only [if_pos hk]
      simp only [decide_eq_true_eq]
      exact hp
    · simp only [if_neg hk]
      simp only [decide_eq_true_eq]
      exact hp
  · rw [if_neg h, List.any_append]
    rw [hh]
    simp

theorem hasStatusForDate_checkSingleNode_self (probe : String → CheckResult)
    (tbl : List DailyStatus) (n : BootstrapNode) (today : Int) :
    hasStatusForDate (checkSingleNode probe tbl n today) n.id today = true := by
  unfold checkSingleNode
  by_cases h : hasStatusForDate tbl n.id today = true
  · rw [if_pos h]
    exact h
  · rw [if_neg h]
    have := hasStatusForDate_createStatus_self tbl
      (checkSingleNodeStatus n.id today (probe n.address))
    simpa [checkSingleNodeStatus] using this

theorem hasStatusForDate_checkSingleNode_mono (probe : String → CheckResult)
    (tbl : List DailyStatus) (m : BootstrapNode) (today id d : Int)
    (hh : hasStatusForDate tbl id d = true) :
    hasStatusForDate (checkSingleNode probe tbl m today) id d = true := by
  unfold checkSingleNode
  by_cases h : hasStatusForDate tbl m.id today = true
  · rw [if_pos h]
    exact hh
  · rw [if_neg h]
    exact hasStatusForDate_createStatus_mono _ _ _ _ hh

theorem hasStatusForDate_foldKeep (probe : String → CheckResult)
    (ns : List BootstrapNode) (today id d : Int) :
    ∀ tbl, hasStatusForDate tbl id d = true →
      hasStatusForDate (ns.foldl (fun t n => checkSingleNode probe t n today) tbl) id d
        = true := by
  induction ns with
  | nil => intro tbl h; exact h
  | cons m ns ih =>
      intro tbl h
      exact ih _ (hasStatusForDate_checkSingleNode_mono probe tbl m today id d h)

theorem hasStatusForDate_foldAll (probe : String → CheckResult)
    (ns : List BootstrapNode) (today : Int) :
    ∀ tbl, ∀ n ∈ ns,
      hasStatusForDate (ns.foldl (fun t n => checkSingleNode probe t n today) tbl) n.id today
        = true := by
  induction ns with
  | nil => intro tbl n h; cases h
  | cons m ns ih =>
      intro tbl n hn
      rcases List.mem_cons.mp hn with rfl | hmem
      · exact hasStatusForDate_foldKeep probe ns today n.id today _
          (hasStatusForDate_checkSingleNode_self probe tbl n today)
      · exact ih _ n hmem

theorem checkFold_id_of_all_have (probe : String → CheckResult)
    (ns : List BootstrapNode) (today : Int) :
    ∀ tbl, (∀ n ∈ ns, hasStatusForDate tbl n.id today = true) →
      ns.foldl (fun t n => checkSingleNode probe t n today) tbl = tbl := by
  induction ns with
  | nil => intro tbl _; rfl
  | cons m ns ih =>
      intro tbl h
      have hm := h m (List.mem_cons_self m ns)
      have hstep : checkSingleNode probe tbl m today = tbl := by
        unfold checkSingleNode
        rw [if_pos hm]
      rw [List.foldl_cons, hstep]
      exact ih tbl (fun n hn => h n (List.mem_cons_of_mem m hn))

theorem hasStatusForDateJsonrpc_createStatus_self (tbl : List JSONRPCDailyStatus)
    (s : JSONRPCDailyStatus) :
    hasStatusForDateJsonrpc (createStatusJsonrpc tbl s) s.serverId s.date = true := by
  unfold hasStatusForDateJsonrpc createStatusJsonrpc
  by_cases h : tbl.any (fun r => decide (r.serverId = s.serverId ∧ r.date = s.date)) = true
  · rw [if_pos h, List.any_map]
    rw [List.any_eq_true] at h ⊢
    obtain ⟨r, hr, hp⟩ := h
    refine ⟨r, hr, ?_⟩
    rw [decide_eq_true_eq] at hp
    simp only [Function.comp]
    simp [if_pos hp, hp.1, hp.2]
  · rw [if_neg h, List.any_append]
    simp

theorem hasStatusForDateJsonrpc_createStatus_mono (tbl : List JSONRPCDailyStatus)
    (s : JSONRPCDailyStatus) (id d : Int)
    (hh : hasStatusForDateJsonrpc tbl id d = true) :
    hasStatusForDateJsonrpc (createStatusJsonrpc tbl s) id d = true := by
  unfold hasStatusForDateJsonrpc at hh ⊢
  unfold createStatusJsonrpc
  by_cases h : tbl.any (fun r => decide (r.serverId = s.serverId ∧ r.date = s.date)) = true
  · rw [if_pos h, List.any_map]
    rw [List.any_eq_true] at hh ⊢
    obtain ⟨r, hr, hp⟩ := hh
    refine ⟨r, hr, ?_⟩
    rw [decide_eq_true_eq] at hp
    simp only [Function.comp]
    by_cases hk : r.serverId = s.serverId ∧ r.date = s.date
    · simp only [if_pos hk]
      simp only [decide_eq_true_eq]
      exact hp
    · simp only [if_neg hk]
      simp only [decide_eq_true_eq]
      exact hp
  · rw [if_neg h, List.any_append]
    rw [hh]
    simp

theorem hasStatusForDateJsonrpc_checkSingleServer_self (probe : String → JSONRPCCheckResult)
    (tbl : List JSONRPCDailyStatus) (s : JSONRPCServer) (today : Int) :
    hasStatusForDateJsonrpc (checkSingleServer probe tbl s today) s.id today = true := by
  unfold checkSingleServer
  by_cases h : hasStatusForDateJsonrpc tbl s.id today = true
  · rw [if_pos h]
    exact h
  · rw [if_neg h]
    have := hasStatusForDateJsonrpc_createStatus_self tbl
      (checkSingleServerStatus s.id today (probe s.address))
    simpa [checkSingleServerStatus] using this

theorem hasStatusForDateJsonrpc_checkSingleServer_mono (probe : String → JSONRPCCheckResult)
    (tbl : List JSONRPCDailyStatus) (m : JSONRPCServer) (today id d : Int)
    (hh : hasStatusForDateJsonrpc tbl id d = true) :
    hasStatusForDateJsonrpc (checkSingleServer probe tbl m today) id d = true := by
  unfold checkSingleServer
  by_cases h : hasStatusForDateJsonrpc tbl m.id today = true
  · rw [if_pos h]
    exact hh
  · rw [if_neg h]
    exact hasStatusForDateJsonrpc_createStatus_mono _ _ _ _ hh

theorem hasStatusForDateJsonrpc_foldKeep (probe : String → JSONRPCCheckResult)
    (ss : List JSONRPCServer) (today id d : Int) :
    ∀ tbl, hasStatusForDateJsonrpc tbl id d = true →
      hasStatusForDateJsonrpc (ss.foldl (fun t s => checkSingleServer probe t s today) tbl) id d
        = true := by
  induction ss with
  | nil => intro tbl h; exact h
  | cons m ss ih =>
      intro tbl h
      exact ih _ (hasStatusForDateJsonrpc_checkSingleServer_mono probe tbl m today id d h)

theorem hasStatusForDateJsonrpc_foldAll (probe : String → JSONRPCCheckResult)
    (ss : List JSONRPCServer) (today : Int) :
    ∀ tbl, ∀ s ∈ ss,
      hasStatusForDateJsonrpc (ss.foldl (fun t s => checkSingleServer probe t s today) tbl)
          s.id today = true := by
  induction ss with
  | nil => intro tbl s h; cases h
  | cons m ss ih =>
      intro tbl s hs
      rcases List.mem_cons.mp hs with rfl | hmem
      · exact hasStatusForDateJsonrpc_foldKeep probe ss today s.id today _
          (hasStatusForDateJsonrpc_checkSingleServer_self probe tbl s today)
      · exact ih _ s hmem

theorem serverFold_id_of_all_have (probe : String → JSONRPCCheckResult)
    (ss : List JSONRPCServer) (today : Int) :
    ∀ tbl, (∀ s ∈ ss, hasStatusForDateJsonrpc tbl s.id today = true) →
      ss.foldl (fun t s => checkSingleServer probe t s today) tbl = tbl := by
  induction ss with
  | nil => intro tbl _; rfl
  | cons m ss ih =>
      intro tbl h
      have hm := h m (List.mem_cons_self m ss)
      have hstep : checkSingleServer probe tbl m today = tbl := by
        unfold checkSingleServer
        rw [if_pos hm]
      rw [List.foldl_cons, hstep]
      exact ih tbl (fun s hs => h s (List.mem_cons_of_mem m hs))

/-- Claim C4, confirmed.  Running a checkAll twice on the same day leaves
the table of the second run identical to that of the first, and in
particular the number of rows of the day is unchanged: on the second run
every active entity short circuits on the per day dedupe. -/
theorem c4_checkall_idempotent :
    (∀ (probe : String → CheckResult) (nodes : List BootstrapNode)
        (today : Int) (tbl : List DailyStatus),
      checkAllNodes probe nodes today (checkAllNodes probe nodes today tbl)
        = checkAllNodes probe nodes today tbl ∧
      countStatusForDate
          (checkAllNodes probe nodes today (checkAllNodes probe nodes today tbl)) today
        = countStatusForDate (checkAllNodes probe nodes today tbl) today) ∧
    (∀ (probe : String → JSONRPCCheckResult) (servers : List JSONRPCServer)
        (today : Int) (tbl : List JSONRPCDailyStatus),
      checkAllServers probe servers today (checkAllServers probe servers today tbl)
        = checkAllServers probe servers today tbl ∧
      countServerStatusForDate
          (checkAllServers probe servers today (checkAllServers probe servers today tbl)) today
        = countServerStatusForDate (checkAllServers probe servers today tbl) today) := by
  constructor
  · intro probe nodes today tbl
    have hid : checkAllNodes probe nodes today (checkAllNodes probe nodes today tbl)
        = checkAllNodes probe nodes today tbl := by
      unfold checkAllNodes
      apply checkFold_id_of_all_have
      intro n hn
      exact hasStatusForDate_foldAll probe _ today tbl n hn
    exact ⟨hid, by rw [hid]⟩
  · intro probe servers today tbl
    have hid : checkAllServers probe servers today (checkAllServers probe servers today tbl)
        = checkAllServers probe servers today tbl := by
      unfold checkAllServers
      apply serverFold_id_of_all_have
      intro s hs
      exact hasStatusForDateJsonrpc_foldAll probe _ today tbl s hs
    exact ⟨hid, by rw [hid]⟩

theorem retryFrom_attempts_ge (s : Nat) (o : Nat → Bool) :
    ∀ fuel attempt, 1 ≤ fuel → attempt ≤ (retryFrom s o attempt fuel).attempts := by
  intro fuel
  induction fuel with
  | zero => intro attempt h; omega
  | succ f ih =>
      intro attempt _
      rw [retryFrom]
      by_cases ho : o attempt = true
      · rw [if_pos ho]
      · rw [if_neg ho]
        by_cases hf : f = 0
        · rw [if_pos hf]
        · rw [if_neg hf]
          have := ih (attempt + 1) (by omega)
          simp only
          omega

theorem retryFrom_attempts_le (s : Nat) (o : Nat → Bool) :
    ∀ fuel attempt, (retryFrom s o attempt fuel).attempts ≤ attempt + fuel - 1 := by
  intro fuel
  induction fuel with
  | zero => intro attempt; rw [retryFrom]; dsimp only; omega
  | succ f ih =>
      intro attempt
      rw [retryFrom]
      by_cases ho : o attempt = true
      · rw [if_pos ho]
        dsimp only
        omega
      · rw [if_neg ho]
        by_cases hf : f = 0
        · rw [if_pos hf]
          dsimp only
          omega
        · rw [if_neg hf]
          have := ih (attempt + 1)
          simp only
          omega

theorem retryFrom_sleeps_mem (s : Nat) (o : Nat → Bool) :
    ∀ fuel attempt, ∀ x ∈ (retryFrom s o attempt fuel).sleepsMs, x = s := by
  intro fuel
  induction fuel with
  | zero => intro attempt x hx; rw [retryFrom] at hx; cases hx
  | succ f ih =>
      intro attempt x hx
      rw [retryFrom] at hx
      by_cases ho : o attempt = true
      · rw [if_pos ho] at hx; cases hx
      · rw [if_neg ho] at hx
        by_cases hf : f = 0
        · rw [if_pos hf] at hx; cases hx
        · rw [if_neg hf] at hx
          simp only [List.mem_cons] at hx
          rcases hx with rfl | hx
          · rfl
          · exact ih (attempt + 1) x hx

theorem retryFrom_sleeps_len (s : Nat) (o : Nat → Bool) :
    ∀ fuel attempt, 1 ≤ attempt →
      (retryFrom s o attempt fuel).sleepsMs.length
        = (retryFrom s o attempt fuel).attempts - attempt := by
  intro fuel
  induction fuel with
  | zero =>
      intro attempt h
      rw [retryFrom]
      simp
  | succ f ih =>
      intro attempt h
      rw [retryFrom]
      by_cases ho : o attempt = true
      · rw [if_pos ho]; simp
      · rw [if_neg ho]
        by_cases hf : f = 0
        · rw [if_pos hf]; simp
        · rw [if_neg hf]
          simp only [List.length_cons]
          have h1 := ih (attempt + 1) (by omega)
          have h2 := retryFrom_attempts_ge s o f (attempt + 1) (by omega)
          omega

theorem retryFrom_success_first (s : Nat) (o : Nat → Bool) :
    ∀ fuel attempt, (retryFrom s o attempt fuel).success = true →
      o ((retryFrom s o attempt fuel).attempts) = true ∧
      (∀ j, attempt ≤ j → j < (retryFrom s o attempt fuel).attempts → o j = false) := by
  intro fuel
  induction fuel with
  | zero => intro attempt h; rw [retryFrom] at h; cases h
  | succ f ih =>
      intro attempt h
      rw [retryFrom] at h ⊢
      by_cases ho : o attempt = true
      · rw [if_pos ho] at h ⊢
        dsimp only
        exact ⟨ho, fun j h1 h2 => by omega⟩
      · rw [if_neg ho] at h ⊢
        by_cases hf : f = 0
        · rw [if_pos hf] at h; cases h
        · rw [if_neg hf] at h ⊢
          simp only at h ⊢
          obtain ⟨h1, h2⟩ := ih (attempt + 1) h
          refine ⟨h1, fun j hj1 hj2 => ?_⟩
          by_cases hje : j = attempt
          · subst hje
            exact Bool.not_eq_true _ ▸ (by simpa using ho)
          · exact h2 j (by omega) hj2

theorem retryFrom_failure_all (s : Nat) (o : Nat → Bool) :
    ∀ fuel attempt, 1 ≤ attempt → (retryFrom s o attempt fuel).success = false →
      (retryFrom s o attempt fuel).attempts = attempt + fuel - 1 ∧
      (∀ j, attempt ≤ j → j < attempt + fuel → o j = false) := by
  intro fuel
  induction fuel with
  | zero =>
      intro attempt h _
      rw [retryFrom]
      exact ⟨rfl, fun j h1 h2 => by omega⟩
  | succ f ih =>
      intro attempt h hs
      rw [retryFrom] at hs ⊢
      by_cases ho : o attempt = true
      · rw [if_pos ho] at hs; cases hs
      · rw [if_neg ho] at hs ⊢
        by_cases hf : f = 0
        · rw [if_pos hf] at hs ⊢
          subst hf
          dsimp only
          refine ⟨by omega, fun j h1 h2 => ?_⟩
          have : j = attempt := by omega
          subst this
          simpa using ho
        · rw [if_neg hf] at hs ⊢
          simp only at hs ⊢
          obtain ⟨h1, h2⟩ := ih (attempt + 1) (by omega) hs
          refine ⟨by omega, fun j hj1 hj2 => ?_⟩
          by_cases hje : j = attempt
          · subst hje; simpa using ho
          · exact h2 j (by omega) (by omega)

theorem retryFrom_tried (s : Nat) (o : Nat → Bool) :
    ∀ fuel attempt, 1 ≤ attempt →
      (retryFrom s o attempt fuel).tried
        = List.range' attempt ((retryFrom s o attempt fuel).attempts + 1 - attempt) := by
  intro fuel
  induction fuel with
  | zero =>
      intro attempt h
      rw [retryFrom]
      have : attempt - 1 + 1 - attempt = 0 := by omega
      rw [this]
      rfl
  | succ f ih =>
      intro attempt h
      rw [retryFrom]
      by_cases ho : o attempt = true
      · rw [if_pos ho]
        have : attempt + 1 - attempt = 1 := by omega
        rw [this]
        rfl
      · rw [if_neg ho]
        by_cases hf : f = 0
        · rw [if_pos hf]
          have : attempt + 1 - attempt = 1 := by omega
          rw [this]
          rfl
        · rw [if_neg hf]
          simp only
          have hge := retryFrom_attempts_ge s o f (attempt + 1) (by omega)
          have htr := ih (attempt + 1) (by omega)
          rw [htr]
          have h1 : (retryFrom s o (attempt + 1) f).attempts + 1 - attempt
              = ((retryFrom s o (attempt + 1) f).attempts + 1 - (attempt + 1)) + 1 := by omega
          rw [h1, List.range'_succ]

theorem jsonrpcTryFrom_sleeps_mem (o : Nat → Bool) :
    ∀ fuel i, ∀ x ∈ (jsonrpcTryFrom o i fuel).2.1, x = 1000 := by
  intro fuel
  induction fuel with
  | zero => intro i x hx; rw [jsonrpcTryFrom] at hx; cases hx
  | succ f ih =>
      intro i x hx
      rw [jsonrpcTryFrom] at hx
      by_cases ho : o i = true
      · rw [if_pos ho] at hx; cases hx
      · rw [if_neg ho] at hx
        simp only [List.mem_cons] at hx
        rcases hx with rfl | hx
        · rfl
        · exact ih (i + 1) x hx

theorem jsonrpcTryFrom_failure (o : Nat → Bool) :
    ∀ fuel i, (jsonrpcTryFrom o i fuel).1 = false →
      (jsonrpcTryFrom o i fuel).2.1.length = fuel ∧
      (∀ l, i ≤ l → l < i + fuel → o l = false) := by
  intro fuel
  induction fuel with
  | zero =>
      intro i _
      rw [jsonrpcTryFrom]
      exact ⟨rfl, fun l h1 h2 => by omega⟩
  | succ f ih =>
      intro i hs
      rw [jsonrpcTryFrom] at hs ⊢
      by_cases ho : o i = true
      · rw [if_pos ho] at hs; cases hs
      · rw [if_neg ho] at hs ⊢
        simp only [List.length_cons] at hs ⊢
        obtain ⟨h1, h2⟩ := ih (i + 1) hs
        refine ⟨by omega, fun l hl1 hl2 => ?_⟩
        by_cases hle : l = i
        · subst hle; simpa using ho
        · exact h2 l (by omega) (by omega)

theorem jsonrpcTryFrom_success (o : Nat → Bool) :
    ∀ fuel i, (jsonrpcTryFrom o i fuel).1 = true →
      ∃ j, i ≤ j ∧ j < i + fuel ∧ o j = true ∧
        (∀ l, i ≤ l → l < j → o l = false) ∧
        (jsonrpcTryFrom o i fuel).2.2 = List.range' i (j - i + 1) ∧
        (jsonrpcTryFrom o i fuel).2.1.length = j - i := by
  intro fuel
  induction fuel with
  | zero => intro i h; rw [jsonrpcTryFrom] at h; cases h
  | succ f ih =>
      intro i hs
      rw [jsonrpcTryFrom] at hs ⊢
      by_cases ho : o i = true
      · rw [if_pos ho] at hs ⊢
        refine ⟨i, le_refl i, by omega, ho, fun l h1 h2 => by omega, ?_, ?_⟩
        · have : i - i + 1 = 1 := by omega
          rw [this]
          rfl
        · simp
      · rw [if_neg ho] at hs ⊢
        simp only at hs ⊢
        obtain ⟨j, hj1, hj2, hj3, hj4, hj5, hj6⟩ := ih (i + 1) hs
        refine ⟨j, by omega, by omega, hj3, ?_, ?_, ?_⟩
        · intro l hl1 hl2
          by_cases hle : l = i
          · subst hle; simpa using ho
          · exact hj4 l (by omega) hl2
        · simp only [hj5]
          have h1 : j - i + 1 = (j - (i + 1) + 1) + 1 := by omega
          conv_rhs => rw [h1, List.range'_succ]
        · simp only [List.length_cons, hj6]
          omega

/-- Claim C5, corrected.  The TCP and gRPC probes share one loop: attempts
run 1, 2, ... bounded by maxRetries, every sleep between attempts is 2000
milliseconds (not one second), the loop stops at the first success having
probed exactly the attempts 1 .. attempts, and on total failure it performs
exactly maxRetries attempts.  The JSON-RPC validator hardcodes the reported
attempts to 5, sleeps 1000 milliseconds after every failed attempt
including the last one, and stops at the first success. -/
theorem c5_probe_retries :
    (∀ (o : Nat → Bool) (m : Nat), checkGRPCServer o m = checkNodeRun o m) ∧
    (∀ (o : Nat → Bool) (m : Nat), ∀ x ∈ (checkNodeRun o m).sleepsMs, x = 2000) ∧
    (∀ (o : Nat → Bool) (m : Nat),
      (checkNodeRun o m).sleepsMs.length = (checkNodeRun o m).attempts - 1) ∧
    (∀ (o : Nat → Bool) (m : Nat), (checkNodeRun o m).attempts ≤ m) ∧
    (∀ (o : Nat → Bool) (m : Nat),
      (checkNodeRun o m).tried = List.range' 1 (checkNodeRun o m).attempts) ∧
    (∀ (o : Nat → Bool) (m : Nat), (checkNodeRun o m).success = true →
      o ((checkNodeRun o m).attempts) = true ∧
      ∀ j, 1 ≤ j → j < (checkNodeRun o m).attempts → o j = false) ∧
    (∀ (o : Nat → Bool) (m : Nat), (checkNodeRun o m).success = false →
      (checkNodeRun o m).attempts = m ∧ ∀ j, 1 ≤ j → j ≤ m → o j = false) ∧
    (∀ (o : Nat → Bool), (validateJSONRPCEndpoint o).attempts = 5) ∧
    (∀ (o : Nat → Bool), ∀ x ∈ (validateJSONRPCEndpoint o).sleepsMs, x = 1000) ∧
    (∀ (o : Nat → Bool), (validateJSONRPCEndpoint o).success = false →
      (validateJSONRPCEndpoint o).sleepsMs.length = 5 ∧ ∀ l, l < 5 → o l = false) ∧
    (∀ (o : Nat → Bool), (validateJSONRPCEndpoint o).success = true →
      ∃ j, j < 5 ∧ o j = true ∧ (∀ l, l < j → o l = false) ∧
        (validateJSONRPCEndpoint o).sleepsMs.length = j) := by
  refine ⟨fun o m => rfl, ?_, ?_, ?_, ?_, ?_, ?_, fun o => rfl, ?_, ?_, ?_⟩
  · intro o m x hx
    exact retryFrom_sleeps_mem 2000 o m 1 x hx
  · intro o m
    exact retryFrom_sleeps_len 2000 o m 1 (le_refl 1)
  · intro o m
    unfold checkNodeRun
    have h := retryFrom_attempts_le 2000 o m 1
    omega
  · intro o m
    have h := retryFrom_tried 2000 o m 1 (le_refl 1)
    have h2 : (retryFrom 2000 o 1 m).attempts + 1 - 1 = (retryFrom 2000 o 1 m).attempts := by
      omega
    rw [h2] at h
    exact h
  · intro o m hs
    have h := retryFrom_success_first 2000 o m 1 hs
    exact ⟨h.1, fun j hj1 hj2 => h.2 j hj1 hj2⟩
  · intro o m hs
    unfold checkNodeRun at hs ⊢
    have h := retryFrom_failure_all 2000 o m 1 (le_refl 1) hs
    refine ⟨?_, fun j hj1 hj2 => h.2 j hj1 (by omega)⟩
    have := h.1
    omega
  · intro o x hx
    exact jsonrpcTryFrom_sleeps_mem o 5 0 x hx
  · intro o hs
    have h := jsonrpcTryFrom_failure o 5 0 hs
    exact ⟨h.1, fun l hl => h.2 l (Nat.zero_le l) (by omega)⟩
  · intro o hs
    obtain ⟨j, hj1, hj2, hj3, hj4, hj5, hj6⟩ := jsonrpcTryFrom_success o 5 0 hs
    refine ⟨j, by omega, hj3, fun l hl => hj4 l (Nat.zero_le l) hl, ?_⟩
    show (jsonrpcTryFrom o 0 5).2.1.length = j
    omega

/-- Witness for C5 at a concrete input: with an oracle that always fails
and maxRetries three, the TCP probe fails after exactly three attempts. -/
theorem c5_probe_retries_witness :
    (checkNodeRun (fun _ => false) 3).success = false ∧
    (checkNodeRun (fun _ => false) 3).attempts = 3 :=
  ⟨by decide, (c5_probe_retries.2.2.2.2.2.2.1 (fun _ => false) 3 (by decide)).1⟩

/-- Counterexample to the quoted one second pause of C5: a failing TCP
probe with maxRetries two sleeps exactly once, for 2000 milliseconds, not
1000. -/
theorem c5_counterexample :
    (checkNode (fun _ => false) 2 "/dns/a.example/tcp/1/p2p/x".toList).sleepsMs = [2000] ∧
    (2000 : Nat) ≠ 1000 := by
  decide

theorem scanHostPort_no_keys :
    ∀ (l : List (List Char)) (host port : List Char),
      (∀ x ∈ l.dropLast, x ∉ multiaddrKeys) →
      scanHostPort l host port = (host, port) := by
  intro l
  induction l with
  | nil => intro host port _; rfl
  | cons cur rest ih =>
      intro host port hkeys
      cases rest with
      | nil => rfl
      | cons next rest2 =>
          have hcur : cur ∉ multiaddrKeys := by
            apply hkeys
            simp [List.dropLast]
          have h1 : ¬(cur = "dns".toList ∨ cur = "ip4".toList ∨ cur = "ip6".toList) := by
            intro h
            apply hcur
            rcases h with h | h | h <;> simp [multiaddrKeys, h]
          have h2 : ¬(cur = "tcp".toList) := by
            intro h
            apply hcur
            simp [multiaddrKeys, h]
          rw [scanHostPort, if_neg h1, if_neg h2]
          apply ih
          intro x hx
          apply hkeys
          rcases eq_or_ne rest2 [] with rfl | hne
          · cases hx
          · rw [List.dropLast_cons_of_ne_nil (by simp [hne]), List.dropLast_cons_of_ne_nil hne]
            rw [List.dropLast_cons_of_ne_nil hne] at hx
            exact List.mem_cons_of_mem _ hx

theorem scanHostPort_layered (family host port : List Char) (rest : List (List Char))
    (hfam : family = "dns".toList ∨ family = "ip4".toList ∨ family = "ip6".toList)
    (hhost : host ∉ multiaddrKeys) (hport : port ∉ multiaddrKeys)
    (hrest : ∀ x ∈ rest, x ∉ multiaddrKeys) :
    scanHostPort ([] :: family :: host :: "tcp".toList :: port :: rest) [] [] = (host, port) := by
  have hfamtcp : family ≠ "tcp".toList := by
    rcases hfam with h | h | h <;> subst h <;> decide
  have hhost1 : ¬(host = "dns".toList ∨ host = "ip4".toList ∨ host = "ip6".toList) := by
    intro h
    apply hhost
    rcases h with h | h | h <;> simp [multiaddrKeys, h]
  have hhost2 : host ≠ "tcp".toList := by
    intro h
    apply hhost
    simp [multiaddrKeys, h]
  rw [scanHostPort]
  rw [if_neg (by decide : ¬(([] : List Char) = "dns".toList ∨ ([] : List Char) = "ip4".toList ∨ ([] : List Char) = "ip6".toList))]
  rw [if_neg (by decide : ¬(([] : List Char) = "tcp".toList))]
  rw [scanHostPort, if_pos hfam, if_neg hfamtcp]
  rw [scanHostPort, if_neg hhost1, if_neg hhost2]
  rw [scanHostPort]
  rw [if_neg (by decide : ¬("tcp".toList = "dns".toList ∨ "tcp".toList = "ip4".toList ∨ "tcp".toList = "ip6".toList))]
  rw [if_pos (rfl : "tcp".toList = "tcp".toList)]
  apply scanHostPort_no_keys
  intro x hx
  rcases eq_or_ne rest [] with rfl | hne
  · cases hx
  · rw [List.dropLast_cons_of_ne_nil hne] at hx
    rcases List.mem_cons.mp hx with rfl | hx2
    · exact hport
    · exact hrest x ((List.dropLast_sublist rest).subset hx2)

theorem parseAddressParts_layered (family host port : List Char) (rest : List (List Char))
    (hfam : family = "dns".toList ∨ family = "ip4".toList ∨ family = "ip6".toList)
    (hhost : host ∉ multiaddrKeys) (hport : port ∉ multiaddrKeys)
    (hrest : ∀ x ∈ rest, x ∉ multiaddrKeys)
    (hhost0 : host ≠ []) (hport0 : port ≠ []) :
    parseAddressParts ([] :: family :: host :: "tcp".toList :: port :: rest) = some (host, port) := by
  rw [parseAddressParts]
  rw [if_neg (by simp only [List.length_cons]; omega)]
  rw [scanHostPort_layered family host port rest hfam hhost hport hrest]
  simp [hhost0, hport0]

/-- Claim C6, corrected.  The parser of the TCP probe accepts layered
multiaddresses whose family key is dns, ip4 or ip6 (the switch has no dns4
case), extracting host and port; the quoted dns example parses as stated,
and the input invalid yields a parse error, so CheckNode reports success
false with zero attempts. -/
theorem c6_parse_address :
    (∀ (family host port : List Char) (rest : List (List Char)),
      (family = "dns".toList ∨ family = "ip4".toList ∨ family = "ip6".toList) →
      host ∉ multiaddrKeys → port ∉ multiaddrKeys →
      (∀ x ∈ rest, x ∉ multiaddrKeys) → host ≠ [] → port ≠ [] →
      parseAddressParts ([] :: family :: host :: "tcp".toList :: port :: rest)
        = some (host, port)) ∧
    parseAddress "/dns/bootstrap1.example.org/tcp/21888/p2p/QmFoo".toList
      = some ("bootstrap1.example.org".toList, "21888".toList) ∧
    (∀ (o : Nat → Bool) (m : Nat),
      (checkNode o m "invalid".toList).success = false ∧
      (checkNode o m "invalid".toList).attempts = 0) := by
  refine ⟨parseAddressParts_layered, by decide, ?_⟩
  intro o m
  have h : parseAddress "invalid".toList = none := by decide
  unfold checkNode
  rw [h]
  exact ⟨rfl, rfl⟩

/-- Witness for C6 at a concrete input: the layered parse applied to the
parts of /dns/h/tcp/1. -/
theorem c6_parse_address_witness :
    parseAddressParts ([] :: "dns".toList :: "h".toList :: "tcp".toList :: "1".toList :: [])
      = some ("h".toList, "1".toList) :=
  c6_parse_address.1 "dns".toList "h".toList "1".toList []
    (Or.inl rfl) (by decide) (by decide) (fun x hx => absurd hx (List.not_mem_nil x))
    (by decide) (by decide)

/-- Counterexample to the dns4 family of C6: a dns4 multiaddress does not
parse, because the switch in parseAddress has no dns4 case. -/
theorem c6_counterexample :
    parseAddress "/dns4/bootstrap1.example.org/tcp/21888/p2p/QmFoo".toList = none := by
  decide

/-- Claim C7, code bug.  SubmitRegistration never checks the declared
shape of the request: the request with network devnet, a one character
name and a malformed email is inserted as a pending row, while the only
shape error the service can return is the unknown node type of
validateNode. -/
theorem c7_submit_invalid_shape :
    (submitRegistration (fun _ => true) (fun _ => true) emptyRegState invalidShapeRequest 7
      = .ok (invalidShapeState, 7, "pending")) ∧
    (submitRegistration (fun _ => true) (fun _ => true) emptyRegState badTypeRequest 7
      = .error "unknown node type: ftp") := by
  constructor
  · rfl
  · rfl

theorem ip4LiteralHit_eq_spec (address : List Char) :
    ip4LiteralHit address = specRuleIp4 address := by
  unfold ip4LiteralHit specRuleIp4
  by_cases h1 : strStarts "/ip4/".toList address = true
  · rw [if_pos h1, if_pos h1]
    by_cases h2 : decide (3 ≤ (charSplit '/' address).length) = true
    · by_cases h3 : goParseIPOk ((charSplit '/' address).getD 2 []) = true
      · simp [h2, h3]
      · simp [h2, h3]
    · simp [h2]
  · rw [if_neg h1, if_neg h1]

theorem dnsResolveHit_eq_spec (resolve : List Char → List Char) (address : List Char) :
    dnsResolveHit resolve address = specRuleDns resolve address := by
  unfold dnsResolveHit specRuleDns
  rfl

theorem urlHit_eq_spec (resolve : List Char → List Char) (address : List Char) :
    urlHit resolve address = specRuleURL resolve address := by
  unfold urlHit specRuleURL specResolveHost
  by_cases h1 : (strStarts "http://".toList address || strStarts "https://".toList address) = true
  · rw [if_pos h1, if_pos h1]
    by_cases h2 : goParseIPOk (goURLHostname address) = true
    · simp [h2]
    · simp [h2]
  · rw [if_neg h1, if_neg h1]

theorem hostPortHit_eq_spec (resolve : List Char → List Char) (address : List Char) :
    hostPortHit resolve address = specRuleHostPort resolve address := by
  unfold hostPortHit specRuleHostPort specResolveHost
  by_cases h1 : address.contains ':' = true
  · rw [if_pos h1, if_pos h1]
    cases h2 : goSplitHostPort address with
    | none => rfl
    | some hp =>
        by_cases h3 : goParseIPOk hp.1 = true
        · simp [h3]
        · simp [h3]
  · rw [if_neg h1, if_neg h1]

theorem extractIP_eq_spec (resolve : List Char → List Char) (address : List Char) :
    extractIPFromAddress resolve address = specExtractIP resolve address := by
  rw [extractIPFromAddress, specExtractIP]
  rw [ip4LiteralHit_eq_spec, dnsResolveHit_eq_spec, urlHit_eq_spec, hostPortHit_eq_spec]
  cases h1 : specRuleIp4 address with
  | some v => simp [Option.orElse]
  | none =>
    simp only [Option.orElse, Option.getD]
    cases h2 : specRuleDns resolve address with
    | some v => simp [Option.orElse]
    | none =>
      simp only [Option.orElse, Option.getD]
      cases h3 : specRuleURL resolve address with
      | some v => simp [Option.orElse]
      | none =>
        simp only [Option.orElse, Option.getD]
        cases h4 : specRuleHostPort resolve address with
        | some v => simp [Option.orElse]
        | none =>
          simp only [Option.orElse, Option.getD]
          rw [specRuleRegex]
          cases h5 : findIPv4 address with
          | some m =>
              by_cases h6 : goParseIPOk m = true
              · simp [h6]
              · simp [h6]
          | none => rfl

/-- Claim C8, corrected.  ExtractIPFromAddress refines the rule list of the
specification with the ip6 literal rule removed: the branches are the ip4
literal, the resolved dns or dns4 host, the resolved URL host, the resolved
host of a bare host and port pair, the regex IPv4 fallback, and the empty
string; the dns and ip4 samples behave as quoted. -/
theorem c8_extract_ip :
    (∀ (resolve : List Char → List Char) (address : List Char),
      extractIPFromAddress resolve address = specExtractIP resolve address) ∧
    (∀ resolve : List Char → List Char,
      extractIPFromAddress resolve "/dns/example.com/tcp/21888/p2p/QmFoo".toList
        = resolve "example.com".toList) ∧
    extractIPFromAddress (fun _ => [])
        "/ip4/65.108.211.187/tcp/21888/p2p/QmFoo".toList = "65.108.211.187".toList ∧
    extractIPFromAddress (fun _ => "x".toList) "gibberish".toList = [] := by
  refine ⟨extractIP_eq_spec, fun resolve => rfl, by decide, by decide⟩

/-- Counterexample to the ip6 literal rule of C8: an ip6 multiaddress falls
through every branch and yields the empty string, not its literal. -/
theorem c8_counterexample :
    extractIPFromAddress (fun _ => "9.9.9.9".toList)
        "/ip6/2001:db8::1/tcp/21888/p2p/QmFoo".toList = [] ∧
      ([] : List Char) ≠ "2001:db8::1".toList := by
  decide

theorem jobStateInv (evs : List JobEvent) :
    (runJobEvents evs).active = (if (runJobEvents evs).running then 1 else 0) := by
  rw [runJobEvents]
  have main : ∀ (l : List JobEvent) (s : JobState),
      s.active = (if s.running then 1 else 0) →
      (l.foldl skipIfStillRunningStep s).active
        = (if (l.foldl skipIfStillRunningStep s).running then 1 else 0) := by
    intro l
    induction l with
    | nil => intro s h; exact h
    | cons e rest ih =>
        intro s h
        rw [List.foldl_cons]
        apply ih
        cases e with
        | tick =>
            rw [skipIfStillRunningStep]
            by_cases hr : s.running = true
            · rw [if_pos hr]
              simpa [hr] using h
            · rw [if_neg hr]
              simp [hr] at h
              simp [h]
        | finish =>
            rw [skipIfStillRunningStep]
            by_cases hr : s.running = true
            · rw [if_pos hr]
              simp [hr] at h
              simp [h]
            · rw [if_neg hr]
              exact h
  exact main evs initJobState (by rfl)

/-- Claim C9, confirmed over the modelled wrapper semantics.  In every
event run of a job wrapped by SkipIfStillRunning at most one invocation is
active, and a tick arriving while the job runs only increments the skip
count: it starts nothing and changes no other field. -/
theorem c9_no_overlap :
    (∀ evs : List JobEvent, (runJobEvents evs).active ≤ 1) ∧
    (∀ s : JobState, s.running = true →
      (skipIfStillRunningStep s JobEvent.tick).skipped = s.skipped + 1 ∧
      (skipIfStillRunningStep s JobEvent.tick).active = s.active ∧
      (skipIfStillRunningStep s JobEvent.tick).started = s.started ∧
      (skipIfStillRunningStep s JobEvent.tick).running = s.running) := by
  constructor
  · intro evs
    have h := jobStateInv evs
    by_cases hr : (runJobEvents evs).running = true
    · simp [hr] at h; omega
    · simp [hr] at h; omega
  · intro s hs
    rw [skipIfStillRunningStep, if_pos hs]
    exact ⟨rfl, rfl, rfl, hs.symm ▸ rfl⟩

/-- Witness for C9 at a concrete input: after one tick the job runs, and a
second tick is skipped, leaving the start count at one. -/
theorem c9_no_overlap_witness :
    (runJobEvents [JobEvent.tick, JobEvent.tick]).active ≤ 1 ∧
    (skipIfStillRunningStep (skipIfStillRunningStep initJobState JobEvent.tick)
        JobEvent.tick).skipped
      = (skipIfStillRunningStep initJobState JobEvent.tick).skipped + 1 ∧
    (skipIfStillRunningStep (skipIfStillRunningStep initJobState JobEvent.tick)
        JobEvent.tick).started
      = (skipIfStillRunningStep initJobState JobEvent.tick).started := by
  have h := c9_no_overlap.2 (skipIfStillRunningStep initJobState JobEvent.tick) (by decide)
  exact ⟨c9_no_overlap.1 [JobEvent.tick, JobEvent.tick], h.1, h.2.2.1⟩

theorem peerMapNodes_total (peers : List ReachablePeer)
    (h : ∀ p ∈ peers, (p.latitude ≠ 0 ∨ p.longitude ≠ 0) → 12 ≤ p.peerId.length) :
    (peerMapNodes peers).isSome = true := by
  rw [peerMapNodes]
  induction peers with
  | nil => rfl
  | cons p rest ih =>
      rw [List.filter_cons]
      by_cases hp : decide (p.latitude ≠ 0 ∨ p.longitude ≠ 0) = true
      · rw [if_pos hp]
        rw [List.mapM_cons]
        have h12 : 12 ≤ p.peerId.length := h p (List.mem_cons_self p rest)
          (by simpa using hp)
        have hslice : (goSliceTo p.peerId 12).isSome = true := by
          rw [goSliceTo, if_pos h12]
          rfl
        cases hg : goSliceTo p.peerId 12 with
        | none => rw [hg] at hslice; cases hslice
        | some pre =>
            have hrest := ih (fun q hq hgeo => h q (List.mem_cons_of_mem p hq) hgeo)
            cases hr : (rest.filter (fun p => decide (p.latitude ≠ 0 ∨ p.longitude ≠ 0))).mapM
                (fun p => (goSliceTo p.peerId 12).map (fun pre =>
                  ({ id := p.id, name := pre ++ "...", nodeType := "peer",
                     lat := p.latitude, lon := p.longitude,
                     status := if p.isReachable then "online" else "offline",
                     country := p.country, city := p.city } : MapNode))) with
            | none => rw [hr] at hrest; cases hrest
            | some l => simp [hg, hr]
      · rw [if_neg hp]
        exact ih (fun q hq hgeo => h q (List.mem_cons_of_mem p hq) hgeo)

theorem peerMapNodes_short_none (peers : List ReachablePeer) (p : ReachablePeer)
    (hp : p ∈ peers) (hgeo : p.latitude ≠ 0 ∨ p.longitude ≠ 0)
    (hshort : p.peerId.length < 12) :
    peerMapNodes peers = none := by
  rw [peerMapNodes]
  induction peers with
  | nil => cases hp
  | cons q rest ih =>
      rw [List.filter_cons]
      rcases List.mem_cons.mp hp with rfl | hmem
      · rw [if_pos (by simpa using hgeo)]
        rw [List.mapM_cons]
        have : goSliceTo p.peerId 12 = none := by
          rw [goSliceTo, if_neg (by omega)]
        simp [this]
      · by_cases hq : decide (q.latitude ≠ 0 ∨ q.longitude ≠ 0) = true
        · rw [if_pos hq]
          rw [List.mapM_cons]
          have hrest := ih hmem
          rw [hrest]
          cases goSliceTo q.peerId 12 <;> rfl
        · rw [if_neg hq]
          exact ih hmem

/-- Claim C10, confirmed.  GetMapNodes is total exactly under the quoted
precondition: when every geo fixed reachable peer has an identifier of at
least twelve bytes the call returns a value, and one geo fixed peer with a
shorter identifier makes the whole call panic, rendered none. -/
theorem c10_map_nodes_slice :
    (∀ (grpc : List GRPCServer) (jsonrpc : List JSONRPCServer)
        (bootstrap : List BootstrapNode) (peers : List ReachablePeer),
      (∀ p ∈ peers, (p.latitude ≠ 0 ∨ p.longitude ≠ 0) → 12 ≤ p.peerId.length) →
      (getMapNodes grpc jsonrpc bootstrap peers).isSome = true) ∧
    (∀ (grpc : List GRPCServer) (jsonrpc : List JSONRPCServer)
        (bootstrap : List BootstrapNode) (peers : List ReachablePeer)
        (p : ReachablePeer), p ∈ peers → (p.latitude ≠ 0 ∨ p.longitude ≠ 0) →
      p.peerId.length < 12 → getMapNodes grpc jsonrpc bootstrap peers = none) := by
  constructor
  · intro grpc jsonrpc bootstrap peers hpre
    have h := peerMapNodes_total peers hpre
    unfold getMapNodes
    cases hp : peerMapNodes peers with
    | none => rw [hp] at h; cases h
    | some l => rfl
  · intro grpc jsonrpc bootstrap peers p hp hgeo hshort
    have h := peerMapNodes_short_none peers p hp hgeo hshort
    unfold getMapNodes
    rw [h]
    rfl

/-- Witness for C10 at a concrete input: a single peer with a sixteen byte
identifier yields a value, a single peer with a five byte identifier yields
none. -/
theorem c10_map_nodes_slice_witness :
    (getMapNodes [] [] [] [longIdPeer]).isSome = true ∧
    getMapNodes [] [] [] [shortIdPeer] = none := by
  constructor
  · refine c10_map_nodes_slice.1 [] [] [] [longIdPeer] ?_
    intro p hp hgeo
    rcases List.mem_singleton.mp hp with rfl
    decide
  · refine c10_map_nodes_slice.2 [] [] [] [shortIdPeer] shortIdPeer
      (List.mem_singleton.mpr rfl) (Or.inl ?_) (by decide)
    show (1 : ℚ) ≠ 0
    norm_num

end NodeTracker
